import Mathlib

/-!
# Verification of the Strangermingle pairing server

Shallow embedding of `src/server.js`. The file concatenates three variants of
the server; the claims concern the first two:

* variant 1 (lines 1-215): centralized `findAndPairUsers`, `disconnectPair`
  re-enqueues the abandoned partner, `next`/`report` re-match the initiator;
* variant 2 (lines 216-421): inline join handler, `disconnectPair` does not
  re-enqueue, `next`/`skip` leave the initiator idle, `report` only unpairs.

Socket ids are `Nat`; the JS `Map` becomes a function `Nat → Option Nat`;
message payload fields are a small JavaScript-value type so that falsy and
`typeof` checks translate literally.  Each handler returns the new state plus
the list of emissions (`io.to(x).emit(...)` calls and outbound HTTP requests),
in order.
-/

set_option maxRecDepth 10000

namespace Strangermingle

/-- A JavaScript value, as far as the message handler inspects payloads. -/
inductive JsVal where
  | undef
  | null
  | jsBool (b : Bool)
  | num (n : Int)
  | str (s : List Char)
  | obj
deriving DecidableEq, Repr

/-- JavaScript falsiness for the values above (`!x` in the source). -/
def falsy : JsVal → Bool
  | .undef => true
  | .null => true
  | .jsBool b => !b
  | .num n => n == 0
  | .str s => s.isEmpty
  | .obj => false

/-- `typeof x === 'string'`. -/
def isStr : JsVal → Bool
  | .str _ => true
  | _ => false

/-- The character list of a string value (only inspected when `isStr`). -/
def strVal : JsVal → List Char
  | .str s => s
  | _ => []

/-- JavaScript whitespace characters relevant to `String.prototype.trim`. -/
def isWhiteChar (c : Char) : Bool :=
  c == ' ' || c == '\t' || c == '\n' || c == '\r' || c == '\x0b' || c == '\x0c'

/-- `text.trim()`: strip leading and trailing whitespace. -/
def trimList (l : List Char) : List Char :=
  ((l.dropWhile isWhiteChar).reverse.dropWhile isWhiteChar).reverse

/-- An entry of `waitingUsers`: socket id plus `joinedAt` timestamp. -/
structure WaitingUser where
  uid : Nat
  joinedAt : Nat
deriving DecidableEq, Repr

/-- Error payloads emitted as `socket.emit("error", {type, ...})`. -/
inductive ErrKind where
  | noPartner
  | captchaFailed
  | invalidMessage
  | messageTooLong
  | serverError
deriving DecidableEq, Repr

/-- Outbound socket events. -/
inductive OutMsg where
  | connectedMsg
  | searchingMsg
  | partnerDisconnectedMsg
  | chatMsg (text : List Char)
  | typingMsg
  | stopTypingMsg
  | errMsg (k : ErrKind)
  | pongMsg
deriving DecidableEq, Repr

/-- One observable emission of a handler: a targeted socket event, or the
outbound HTTP request to the reCAPTCHA verification service. -/
inductive Emit where
  | toSock (target : Nat) (m : OutMsg)
  | recaptchaRequest (token : JsVal)
deriving DecidableEq, Repr

/-- Payload of a `message` event: `const { text, captcha } = data`. -/
structure MsgData where
  text : JsVal
  captcha : JsVal
deriving DecidableEq, Repr

/-- The server's mutable state: `waitingUsers`, `connectedPairs`, the
per-socket `isVerified` flags, the live socket set `io.sockets.sockets`,
the `userStats` counters, and a clock standing for `Date.now()`. -/
structure ServerState where
  waitingUsers : List WaitingUser
  connectedPairs : Nat → Option Nat
  verified : Nat → Bool
  liveSockets : List Nat
  totalConnections : Nat
  activeUsers : Int
  totalMessages : Nat
  clock : Nat

/-- The state before any connection arrives. -/
def initState : ServerState :=
  { waitingUsers := []
    connectedPairs := fun _ => none
    verified := fun _ => false
    liveSockets := []
    totalConnections := 0
    activeUsers := 0
    totalMessages := 0
    clock := 0 }

/-- `Map.prototype.set` on the pairing map. -/
def mapSet (m : Nat → Option Nat) (k v : Nat) : Nat → Option Nat :=
  fun x => if x = k then some v else m x

/-- `Map.prototype.delete` on the pairing map. -/
def mapDelete (m : Nat → Option Nat) (k : Nat) : Nat → Option Nat :=
  fun x => if x = k then none else m x

/-- `findIndex` + `splice(i, 1)`: remove and return the first element
satisfying `p`, keeping the rest in order. -/
def spliceFirst (p : α → Bool) : List α → Option (α × List α)
  | [] => none
  | x :: xs =>
    if p x then some (x, xs)
    else
      match spliceFirst p xs with
      | none => none
      | some (y, ys) => some (y, x :: ys)

/-- `findPartner(socketId)`. -/
def findPartner (s : ServerState) (socketId : Nat) : Option Nat :=
  s.connectedPairs socketId

/-- `removeFromWaiting(socketId)`. -/
def removeFromWaiting (s : ServerState) (socketId : Nat) : ServerState :=
  { s with waitingUsers := s.waitingUsers.filter (fun u => u.uid != socketId) }

/-- `verifyRecaptcha(token)`, parameterized by whether a real secret key is
configured and by an oracle for the outcome of the HTTP verification call
(the `catch` branch is the oracle answering `false`).  Returns the result
together with whether the external service was actually consulted. -/
def verifyRecaptcha (configured : Bool) (remoteOk : JsVal → Bool)
    (token : JsVal) : Bool × Bool :=
  if falsy token || token == JsVal.str "demo-token".toList then (true, false)
  else if !configured then (true, false)
  else (remoteOk token, true)

/-- The shared text-validation-and-relay tail of both message handlers:
the `invalid_message` / `message_too_long` guards and the relay itself.
Note the length guard reads `text.length`, not `text.trim().length`. -/
def relayText (s : ServerState) (socketId partnerId : Nat) (text : JsVal) :
    ServerState × List Emit :=
  if falsy text || !isStr text || (trimList (strVal text)).isEmpty then
    (s, [Emit.toSock socketId (.errMsg .invalidMessage)])
  else if 500 < (strVal text).length then
    (s, [Emit.toSock socketId (.errMsg .messageTooLong)])
  else
    ({ s with totalMessages := s.totalMessages + 1 },
     [Emit.toSock partnerId (.chatMsg (trimList (strVal text)))])

/-- The `message` handler (identical in variants 1 and 2). -/
def messageHandler (configured : Bool) (remoteOk : JsVal → Bool)
    (s : ServerState) (socketId : Nat) (data : MsgData) :
    ServerState × List Emit :=
  match findPartner s socketId with
  | none => (s, [Emit.toSock socketId (.errMsg .noPartner)])
  | some partnerId =>
    if !(s.verified socketId) then
      let res := verifyRecaptcha configured remoteOk data.captcha
      let pre : List Emit :=
        if res.2 then [Emit.recaptchaRequest data.captcha] else []
      if !res.1 then
        (s, pre ++ [Emit.toSock socketId (.errMsg .captchaFailed)])
      else
        let s1 := { s with verified := fun x => if x = socketId then true else s.verified x }
        let out := relayText s1 socketId partnerId data.text
        (out.1, pre ++ out.2)
    else
      relayText s socketId partnerId data.text

/-- The `typing` handler (identical in both variants). -/
def typingHandler (s : ServerState) (socketId : Nat) : ServerState × List Emit :=
  match findPartner s socketId with
  | some partnerId => (s, [Emit.toSock partnerId .typingMsg])
  | none => (s, [])

/-- The `stopTyping` handler (identical in both variants). -/
def stopTypingHandler (s : ServerState) (socketId : Nat) : ServerState × List Emit :=
  match findPartner s socketId with
  | some partnerId => (s, [Emit.toSock partnerId .stopTypingMsg])
  | none => (s, [])

/-! ## Variant 1 (lines 1-215): auto-requeue -/

/-- Variant 1 `disconnectPair(socketId)`: notify the partner, delete both map
entries, and — if the partner socket is still live — put the partner back
into the waiting queue and tell it `searching`. -/
def disconnectPair (s : ServerState) (socketId : Nat) : ServerState × List Emit :=
  match findPartner s socketId with
  | none => (s, [])
  | some partnerId =>
    let s1 := { s with
      connectedPairs := mapDelete (mapDelete s.connectedPairs socketId) partnerId }
    if partnerId ∈ s1.liveSockets then
      let s2 := removeFromWaiting s1 partnerId
      let s3 := { s2 with
        waitingUsers := s2.waitingUsers ++ [⟨partnerId, s.clock⟩] }
      (s3, [Emit.toSock partnerId .partnerDisconnectedMsg,
            Emit.toSock partnerId .searchingMsg])
    else
      (s1, [Emit.toSock partnerId .partnerDisconnectedMsg])

/-- Variant 1 `findAndPairUsers(socket)`: pick the first waiting user whose id
differs from the caller and pair with it, else (idempotently) enqueue the
caller. -/
def findAndPairUsers (s : ServerState) (socketId : Nat) : ServerState × List Emit :=
  match spliceFirst (fun u => u.uid != socketId) s.waitingUsers with
  | some (partner, rest) =>
    ({ s with
        waitingUsers := rest
        connectedPairs :=
          mapSet (mapSet s.connectedPairs socketId partner.uid) partner.uid socketId
        totalConnections := s.totalConnections + 1 },
     [Emit.toSock socketId .connectedMsg, Emit.toSock partner.uid .connectedMsg])
  | none =>
    let s1 := removeFromWaiting s socketId
    ({ s1 with waitingUsers := s1.waitingUsers ++ [⟨socketId, s.clock⟩] },
     [Emit.toSock socketId .searchingMsg])

/-- Connection lifecycle and socket events, each tagged with the socket id
that the transport delivers it for. -/
inductive Ev where
  | connect (socketId : Nat)
  | join (socketId : Nat)
  | message (socketId : Nat) (data : MsgData)
  | typing (socketId : Nat)
  | stopTyping (socketId : Nat)
  | next (socketId : Nat)
  | skip (socketId : Nat)
  | report (socketId : Nat) (reason : JsVal)
  | disconnect (socketId : Nat)
  | pingEv (socketId : Nat)
deriving DecidableEq, Repr

/-- Variant 1: dispatch one event to its handler. -/
def handleEvent1 (configured : Bool) (remoteOk : JsVal → Bool)
    (s : ServerState) : Ev → ServerState × List Emit
  | .connect c =>
    ({ s with
        activeUsers := s.activeUsers + 1
        verified := fun x => if x = c then false else s.verified x
        liveSockets := c :: s.liveSockets }, [])
  | .join c => findAndPairUsers s c
  | .message c d => messageHandler configured remoteOk s c d
  | .typing c => typingHandler s c
  | .stopTyping c => stopTypingHandler s c
  | .next c =>
    let r1 := disconnectPair s c
    let r2 := findAndPairUsers r1.1 c
    (r2.1, r1.2 ++ r2.2)
  | .skip _ => (s, [])
  | .report c _ =>
    let r1 := disconnectPair s c
    let r2 := findAndPairUsers r1.1 c
    (r2.1, r1.2 ++ r2.2)
  | .disconnect c =>
    let s0 := { s with
      activeUsers := s.activeUsers - 1
      liveSockets := s.liveSockets.filter (fun x => x != c) }
    let s1 := removeFromWaiting s0 c
    disconnectPair s1 c
  | .pingEv c => (s, [Emit.toSock c .pongMsg])

/-- Variant 1: one step of the event loop; the clock advances between events. -/
def step1 (configured : Bool) (remoteOk : JsVal → Bool)
    (s : ServerState) (e : Ev) : ServerState :=
  let s1 := (handleEvent1 configured remoteOk s e).1
  { s1 with clock := s1.clock + 1 }

/-- Variant 1: run an event sequence from the initial state. -/
def run1 (configured : Bool) (remoteOk : JsVal → Bool) (evs : List Ev) : ServerState :=
  evs.foldl (step1 configured remoteOk) initState

/-! ## Variant 2 (lines 216-421): no auto-requeue -/

/-- Variant 2 `disconnectPair(socketId)`: notify the partner and delete both
map entries; the partner is not re-enqueued. -/
def disconnectPair2 (s : ServerState) (socketId : Nat) : ServerState × List Emit :=
  match findPartner s socketId with
  | none => (s, [])
  | some partnerId =>
    ({ s with
        connectedPairs := mapDelete (mapDelete s.connectedPairs socketId) partnerId },
     [Emit.toSock partnerId .partnerDisconnectedMsg])

/-- Variant 2 inline `join` handler: when the queue is nonempty, pair with the
first entry of a different id if one exists, otherwise push (without removing
any stale entry); when the queue is empty, push. -/
def joinHandler2 (s : ServerState) (socketId : Nat) : ServerState × List Emit :=
  if s.waitingUsers.length > 0 then
    match spliceFirst (fun u => u.uid != socketId) s.waitingUsers with
    | some (waitingUser, rest) =>
      ({ s with
          waitingUsers := rest
          connectedPairs :=
            mapSet (mapSet s.connectedPairs socketId waitingUser.uid) waitingUser.uid socketId
          totalConnections := s.totalConnections + 1 },
       [Emit.toSock socketId .connectedMsg, Emit.toSock waitingUser.uid .connectedMsg])
    | none =>
      ({ s with waitingUsers := s.waitingUsers ++ [⟨socketId, s.clock⟩] },
       [Emit.toSock socketId .searchingMsg])
  else
    ({ s with waitingUsers := s.waitingUsers ++ [⟨socketId, s.clock⟩] },
     [Emit.toSock socketId .searchingMsg])

/-- Variant 2: dispatch one event to its handler. -/
def handleEvent2 (configured : Bool) (remoteOk : JsVal → Bool)
    (s : ServerState) : Ev → ServerState × List Emit
  | .connect c =>
    ({ s with
        activeUsers := s.activeUsers + 1
        verified := fun x => if x = c then false else s.verified x
        liveSockets := c :: s.liveSockets }, [])
  | .join c => joinHandler2 s c
  | .message c d => messageHandler configured remoteOk s c d
  | .typing c => typingHandler s c
  | .stopTyping c => stopTypingHandler s c
  | .next c =>
    let r1 := disconnectPair2 s c
    (removeFromWaiting r1.1 c, r1.2)
  | .skip c =>
    let r1 := disconnectPair2 s c
    (removeFromWaiting r1.1 c, r1.2)
  | .report c _ => disconnectPair2 s c
  | .disconnect c =>
    let s0 := { s with
      activeUsers := s.activeUsers - 1
      liveSockets := s.liveSockets.filter (fun x => x != c) }
    let s1 := removeFromWaiting s0 c
    disconnectPair2 s1 c
  | .pingEv c => (s, [Emit.toSock c .pongMsg])

/-- Variant 2: one step of the event loop; the clock advances between events. -/
def step2 (configured : Bool) (remoteOk : JsVal → Bool)
    (s : ServerState) (e : Ev) : ServerState :=
  let s1 := (handleEvent2 configured remoteOk s e).1
  { s1 with clock := s1.clock + 1 }

/-- Variant 2: run an event sequence from the initial state. -/
def run2 (configured : Bool) (remoteOk : JsVal → Bool) (evs : List Ev) : ServerState :=
  evs.foldl (step2 configured remoteOk) initState

/-! ## Basic lemmas about the embedded operations -/

theorem spliceFirst_some {α : Type} {p : α → Bool} {l : List α} {x : α}
    {r : List α} (h : spliceFirst p l = some (x, r)) :
    ∃ l1 l2, l = l1 ++ x :: l2 ∧ r = l1 ++ l2 ∧
      (∀ y ∈ l1, p y = false) ∧ p x = true := by
  induction l generalizing x r with
  | nil => simp [spliceFirst] at h
  | cons a as ih =>
    rw [spliceFirst] at h
    by_cases hpa : p a
    · rw [if_pos hpa] at h
      simp only [Option.some.injEq, Prod.mk.injEq] at h
      obtain ⟨hx, hr⟩ := h
      exact ⟨[], as, by simp [hx], by simp [hr.symm], by simp, by rwa [hx] at hpa⟩
    · rw [if_neg hpa] at h
      cases h2 : spliceFirst p as with
      | none => rw [h2] at h; cases h
      | some yr =>
        obtain ⟨y, ys⟩ := yr
        rw [h2] at h
        simp only [Option.some.injEq, Prod.mk.injEq] at h
        obtain ⟨hx, hr⟩ := h
        subst hx; subst hr
        obtain ⟨l1, l2, hl, hys, hl1, hpx⟩ := ih h2
        refine ⟨a :: l1, l2, by simp [hl], by simp [hys], ?_, hpx⟩
        intro z hz
        rcases List.mem_cons.mp hz with hz | hz
        · subst hz; exact Bool.eq_false_iff.mpr hpa
        · exact hl1 z hz

theorem spliceFirst_none {α : Type} {p : α → Bool} {l : List α} :
    spliceFirst p l = none ↔ ∀ x ∈ l, p x = false := by
  induction l with
  | nil => simp [spliceFirst]
  | cons a as ih =>
    rw [spliceFirst]
    by_cases hpa : p a
    · simp [if_pos hpa, hpa]
    · rw [if_neg hpa]
      cases h2 : spliceFirst p as with
      | none =>
        simp only [true_iff]
        intro x hx
        rcases List.mem_cons.mp hx with hx | hx
        · subst hx; exact Bool.eq_false_iff.mpr hpa
        · exact (ih.mp h2) x hx
      | some yr =>
        obtain ⟨y, ys⟩ := yr
        obtain ⟨l1, l2, has, _, _, hpy⟩ := spliceFirst_some h2
        have hy : y ∈ a :: as := List.mem_cons_of_mem a (by rw [has]; simp)
        constructor
        · intro hcontr; cases hcontr
        · intro hall
          rw [hall y hy] at hpy
          cases hpy

theorem spliceFirst_rest_sublist {α : Type} {p : α → Bool} {l : List α}
    {x : α} {r : List α} (h : spliceFirst p l = some (x, r)) : r.Sublist l := by
  obtain ⟨l1, l2, hl, hr, _, _⟩ := spliceFirst_some h
  subst hl; subst hr
  exact List.Sublist.append_left (List.sublist_cons_self x l2) l1

theorem spliceFirst_mem {α : Type} {p : α → Bool} {l : List α} {x : α}
    {r : List α} (h : spliceFirst p l = some (x, r)) : x ∈ l := by
  obtain ⟨l1, l2, hl, _, _, _⟩ := spliceFirst_some h
  subst hl; simp

/-- The waiting-pool identities, in queue order. -/
def waitingIds (s : ServerState) : List Nat := s.waitingUsers.map (·.uid)

/-- The core state invariant of the matchmaker: the Pairing Table is
symmetric and self-pair-free, the Waiting Pool is disjoint from the Pairing
Table, has no duplicate identities, references only live sockets, and is
ordered by enqueue timestamp; pairs reference only live sockets. -/
structure Inv (s : ServerState) : Prop where
  sym : ∀ a b, s.connectedPairs a = some b → s.connectedPairs b = some a
  noSelf : ∀ a, s.connectedPairs a ≠ some a
  disj : ∀ u ∈ s.waitingUsers, s.connectedPairs u.uid = none
  nodupW : (waitingIds s).Nodup
  waitLive : ∀ u ∈ s.waitingUsers, u.uid ∈ s.liveSockets
  pairLive : ∀ a b, s.connectedPairs a = some b →
    a ∈ s.liveSockets ∧ b ∈ s.liveSockets
  sortedW : List.Pairwise (fun u v : WaitingUser => u.joinedAt ≤ v.joinedAt)
    s.waitingUsers
  stamps : ∀ u ∈ s.waitingUsers, u.joinedAt ≤ s.clock

theorem initState_inv : Inv initState := by
  constructor <;> simp [initState, waitingIds]

/-- Transfer `Inv` to a state with the same pool and pairs, a possibly larger
live-socket set, and a possibly advanced clock. -/
theorem inv_transfer {s s' : ServerState} (hInv : Inv s)
    (hw : s'.waitingUsers = s.waitingUsers)
    (hp : s'.connectedPairs = s.connectedPairs)
    (hl : ∀ x, x ∈ s.liveSockets → x ∈ s'.liveSockets)
    (hc : s.clock ≤ s'.clock) : Inv s' := by
  constructor
  · intro a b hab; rw [hp] at hab ⊢; exact hInv.sym a b hab
  · intro a; rw [hp]; exact hInv.noSelf a
  · intro u hu; rw [hw] at hu; rw [hp]; exact hInv.disj u hu
  · simp only [waitingIds, hw]; exact hInv.nodupW
  · intro u hu; rw [hw] at hu; exact hl _ (hInv.waitLive u hu)
  · intro a b hab; rw [hp] at hab
    exact ⟨hl _ (hInv.pairLive a b hab).1, hl _ (hInv.pairLive a b hab).2⟩
  · rw [hw]; exact hInv.sortedW
  · intro u hu; rw [hw] at hu; exact le_trans (hInv.stamps u hu) hc

/-- Removing one identity from the pool (and possibly from the live set)
preserves `Inv`, provided the removed identity is unpaired. -/
theorem inv_shrinkLive {s s' : ServerState} (hInv : Inv s) {c : Nat}
    (hPair : s.connectedPairs c = none)
    (hw : s'.waitingUsers = s.waitingUsers.filter (fun u => u.uid != c))
    (hp : s'.connectedPairs = s.connectedPairs)
    (hl : ∀ x, x ∈ s.liveSockets → x ≠ c → x ∈ s'.liveSockets)
    (hc : s.clock ≤ s'.clock) : Inv s' := by
  have hsub : (s.waitingUsers.filter (fun u => u.uid != c)).Sublist s.waitingUsers :=
    List.filter_sublist _
  constructor
  · intro a b hab; rw [hp] at hab ⊢; exact hInv.sym a b hab
  · intro a; rw [hp]; exact hInv.noSelf a
  · intro u hu; rw [hw] at hu; rw [hp]; exact hInv.disj u (hsub.subset hu)
  · simp only [waitingIds, hw]
    exact ((hsub.map _).nodup) hInv.nodupW
  · intro u hu; rw [hw] at hu
    have huc : u.uid ≠ c := by
      have := (List.mem_filter.mp hu).2
      simpa using this
    exact hl _ (hInv.waitLive u (hsub.subset hu)) huc
  · intro a b hab; rw [hp] at hab
    have hac : a ≠ c := fun h => by rw [h, hPair] at hab; cases hab
    have hbc : b ≠ c := by
      intro h
      have := hInv.sym a b hab
      rw [h, hPair] at this; cases this
    exact ⟨hl _ (hInv.pairLive a b hab).1 hac, hl _ (hInv.pairLive a b hab).2 hbc⟩
  · rw [hw]; exact hInv.sortedW.sublist hsub
  · intro u hu; rw [hw] at hu
    exact le_trans (hInv.stamps u (hsub.subset hu)) hc

/-- Idempotent enqueue (remove any stale entry, then append a fresh entry)
preserves `Inv`, provided the enqueued identity is live and unpaired. -/
theorem inv_enqueueDedup {s s' : ServerState} (hInv : Inv s) {c t : Nat}
    (hw : s'.waitingUsers =
      s.waitingUsers.filter (fun u => u.uid != c) ++ [⟨c, t⟩])
    (hp : s'.connectedPairs = s.connectedPairs)
    (hl : s'.liveSockets = s.liveSockets)
    (hc1 : s.clock ≤ t) (hc2 : t ≤ s'.clock)
    (hLive : c ∈ s.liveSockets)
    (hPair : s.connectedPairs c = none) : Inv s' := by
  have hsub : (s.waitingUsers.filter (fun u => u.uid != c)).Sublist s.waitingUsers :=
    List.filter_sublist _
  constructor
  · intro a b hab; rw [hp] at hab ⊢; exact hInv.sym a b hab
  · intro a; rw [hp]; exact hInv.noSelf a
  · intro u hu; rw [hw] at hu; rw [hp]
    rcases List.mem_append.mp hu with hu | hu
    · exact hInv.disj u (hsub.subset hu)
    · have := List.mem_singleton.mp hu
      subst this
      exact hPair
  · simp only [waitingIds, hw, List.map_append, List.map_cons, List.map_nil]
    apply List.Nodup.append
    · exact ((hsub.map _).nodup) hInv.nodupW
    · exact List.nodup_singleton _
    · intro x hx hx2
      have hxc := List.mem_singleton.mp hx2
      subst hxc
      obtain ⟨u, hu, huid⟩ := List.mem_map.mp hx
      have hq := (List.mem_filter.mp hu).2
      rw [huid] at hq
      simp at hq
  · intro u hu; rw [hw] at hu; rw [hl]
    rcases List.mem_append.mp hu with hu | hu
    · exact hInv.waitLive u (hsub.subset hu)
    · have := List.mem_singleton.mp hu
      subst this
      exact hLive
  · intro a b hab; rw [hp] at hab; rw [hl]
    exact hInv.pairLive a b hab
  · rw [hw]
    apply List.pairwise_append.mpr
    refine ⟨hInv.sortedW.sublist hsub, List.pairwise_singleton _ _, ?_⟩
    intro u hu v hv
    have := List.mem_singleton.mp hv
    subst this
    exact le_trans (hInv.stamps u (hsub.subset hu)) hc1
  · intro u hu; rw [hw] at hu
    rcases List.mem_append.mp hu with hu | hu
    · exact le_trans (hInv.stamps u (hsub.subset hu)) (le_trans hc1 hc2)
    · have := List.mem_singleton.mp hu
      subst this
      exact hc2

/-- Deleting both directions of an existing pair preserves `Inv`; the pool may
shrink and the live set may lose the disconnecting socket. -/
theorem inv_unpair {s s' : ServerState} (hInv : Inv s) {c p : Nat}
    (hcp : s.connectedPairs c = some p)
    (hw : s'.waitingUsers.Sublist s.waitingUsers)
    (hp : s'.connectedPairs = mapDelete (mapDelete s.connectedPairs c) p)
    (hl : ∀ x, x ∈ s.liveSockets → x ≠ c → x ∈ s'.liveSockets)
    (hc : s.clock ≤ s'.clock) : Inv s' := by
  have hpc : s.connectedPairs p = some c := hInv.sym c p hcp
  have hmap : ∀ x, s'.connectedPairs x =
      if x = p then none else if x = c then none else s.connectedPairs x := by
    intro x; rw [hp]; rfl
  constructor
  · intro a b hab
    rw [hmap a] at hab
    by_cases hap : a = p
    · rw [if_pos hap] at hab; cases hab
    · rw [if_neg hap] at hab
      by_cases hac : a = c
      · rw [if_pos hac] at hab; cases hab
      · rw [if_neg hac] at hab
        have hbp : b ≠ p := by
          intro h; rw [h] at hab
          have h2 := hInv.sym a p hab
          rw [hpc] at h2
          injection h2 with h3
          exact hac h3.symm
        have hbc : b ≠ c := by
          intro h; rw [h] at hab
          have h2 := hInv.sym a c hab
          rw [hcp] at h2
          injection h2 with h3
          exact hap h3.symm
        rw [hmap b, if_neg hbp, if_neg hbc]
        exact hInv.sym a b hab
  · intro a
    rw [hmap a]
    by_cases hap : a = p
    · simp [hap]
    · by_cases hac : a = c
      · simp [hap, hac]
      · simpa [hap, hac] using hInv.noSelf a
  · intro u hu
    rw [hmap]
    have hud := hInv.disj u (hw.subset hu)
    by_cases h1 : u.uid = p
    · simp [h1]
    · by_cases h2 : u.uid = c
      · simp [h1, h2]
      · simp [h1, h2, hud]
  · exact ((hw.map _).nodup) hInv.nodupW
  · intro u hu
    have huc : u.uid ≠ c := by
      intro h
      have := hInv.disj u (hw.subset hu)
      rw [h, hcp] at this; cases this
    exact hl _ (hInv.waitLive u (hw.subset hu)) huc
  · intro a b hab
    rw [hmap a] at hab
    by_cases hap : a = p
    · rw [if_pos hap] at hab; cases hab
    · rw [if_neg hap] at hab
      by_cases hac : a = c
      · rw [if_pos hac] at hab; cases hab
      · rw [if_neg hac] at hab
        have hbc : b ≠ c := by
          intro h; rw [h] at hab
          have h2 := hInv.sym a c hab
          rw [hcp] at h2
          injection h2 with h3
          exact hap h3.symm
        refine ⟨hl _ (hInv.pairLive a b hab).1 hac, hl _ (hInv.pairLive a b hab).2 hbc⟩
  · exact hInv.sortedW.sublist hw
  · intro u hu
    exact le_trans (hInv.stamps u (hw.subset hu)) hc

/-- Pairing a requester with a spliced-out pool entry preserves `Inv`,
provided the requester is live, unpaired and not in the pool. -/
theorem inv_pairUp {s s' : ServerState} (hInv : Inv s) {c : Nat}
    {w : WaitingUser} {rest : List WaitingUser}
    (hsp : spliceFirst (fun u => u.uid != c) s.waitingUsers = some (w, rest))
    (hw : s'.waitingUsers = rest)
    (hp : s'.connectedPairs = mapSet (mapSet s.connectedPairs c w.uid) w.uid c)
    (hl : s'.liveSockets = s.liveSockets)
    (hc : s.clock ≤ s'.clock)
    (hLive : c ∈ s.liveSockets)
    (hPair : s.connectedPairs c = none)
    (hNotW : c ∉ waitingIds s) : Inv s' := by
  have hwmem : w ∈ s.waitingUsers := spliceFirst_mem hsp
  have hsub : rest.Sublist s.waitingUsers := spliceFirst_rest_sublist hsp
  have hwc : w.uid ≠ c := by
    obtain ⟨_, _, _, _, _, hq⟩ := spliceFirst_some hsp
    simpa using hq
  have hwPair : s.connectedPairs w.uid = none := hInv.disj w hwmem
  have hwLive : w.uid ∈ s.liveSockets := hInv.waitLive w hwmem
  have hwNotRest : w.uid ∉ rest.map (·.uid) := by
    obtain ⟨l1, l2, hl12, hr, _, _⟩ := spliceFirst_some hsp
    have hnd := hInv.nodupW
    rw [waitingIds, hl12, List.map_append, List.map_cons] at hnd
    have := (List.nodup_append.mp hnd).2.1
    rw [hr, List.map_append]
    intro hmem
    rcases List.mem_append.mp hmem with hm | hm
    · have hdisj := (List.nodup_append.mp hnd).2.2
      exact hdisj hm (List.mem_cons_self _ _)
    · exact (List.nodup_cons.mp this).1 hm
  have hmap : ∀ x, s'.connectedPairs x =
      if x = w.uid then some c else if x = c then some w.uid else s.connectedPairs x := by
    intro x; rw [hp]; rfl
  constructor
  · intro a b hab
    rw [hmap a] at hab
    by_cases haw : a = w.uid
    · rw [if_pos haw] at hab
      injection hab with h2
      rw [hmap b, ← h2]
      simp [haw, hwc.symm]
    · rw [if_neg haw] at hab
      by_cases hac : a = c
      · rw [if_pos hac] at hab
        injection hab with h2
        rw [hmap b, ← h2]
        simp [hac]
      · rw [if_neg hac] at hab
        have hbw : b ≠ w.uid := by
          intro h; rw [h] at hab
          have h2 := hInv.sym a _ hab
          rw [hwPair] at h2; cases h2
        have hbc : b ≠ c := by
          intro h; rw [h] at hab
          have h2 := hInv.sym a _ hab
          rw [hPair] at h2; cases h2
        rw [hmap b, if_neg hbw, if_neg hbc]
        exact hInv.sym a b hab
  · intro a
    rw [hmap a]
    by_cases haw : a = w.uid
    · simp only [if_pos haw]
      intro h2
      injection h2 with h3
      exact hwc (haw ▸ h3.symm)
    · rw [if_neg haw]
      by_cases hac : a = c
      · simp only [if_pos hac]
        intro h2
        injection h2 with h3
        exact hwc (hac ▸ h3)
      · rw [if_neg hac]
        exact hInv.noSelf a
  · intro u hu
    rw [hw] at hu
    rw [hmap]
    have h1 : u.uid ≠ w.uid := by
      intro h
      exact hwNotRest (h ▸ List.mem_map_of_mem _ hu)
    have h2 : u.uid ≠ c := by
      intro h
      exact hNotW (h ▸ List.mem_map_of_mem _ (hsub.subset hu))
    simp [h1, h2, hInv.disj u (hsub.subset hu)]
  · simp only [waitingIds, hw]
    exact ((hsub.map _).nodup) hInv.nodupW
  · intro u hu
    rw [hw] at hu
    rw [hl]
    exact hInv.waitLive u (hsub.subset hu)
  · intro a b hab
    rw [hmap a] at hab
    rw [hl]
    by_cases haw : a = w.uid
    · rw [if_pos haw] at hab
      injection hab with h2
      rw [haw, ← h2]
      exact ⟨hwLive, hLive⟩
    · rw [if_neg haw] at hab
      by_cases hac : a = c
      · rw [if_pos hac] at hab
        injection hab with h2
        rw [hac, ← h2]
        exact ⟨hLive, hwLive⟩
      · rw [if_neg hac] at hab
        exact hInv.pairLive a b hab
  · rw [hw]
    exact hInv.sortedW.sublist hsub
  · intro u hu
    rw [hw] at hu
    exact le_trans (hInv.stamps u (hsub.subset hu)) hc

/-- The events a real transport can deliver: a fresh socket id connects; only
live sockets emit events; a socket asks for a pairing (`join`) only when it is
neither paired nor still queued, and skips/reports (`next`, `skip`, `report`)
only when it is not queued. -/
def LegalEv (s : ServerState) : Ev → Prop
  | .connect c => c ∉ s.liveSockets
  | .join c => c ∈ s.liveSockets ∧ s.connectedPairs c = none ∧ c ∉ waitingIds s
  | .next c => c ∈ s.liveSockets ∧ c ∉ waitingIds s
  | .skip c => c ∈ s.liveSockets ∧ c ∉ waitingIds s
  | .report c _ => c ∈ s.liveSockets ∧ c ∉ waitingIds s
  | .message _ _ => True
  | .typing _ => True
  | .stopTyping _ => True
  | .disconnect c => c ∈ s.liveSockets
  | .pingEv _ => True

instance instDecLegalEv (s : ServerState) : (e : Ev) → Decidable (LegalEv s e)
  | .connect c => inferInstanceAs (Decidable (c ∉ s.liveSockets))
  | .join _ => inferInstanceAs (Decidable (_ ∧ _ ∧ _))
  | .next _ => inferInstanceAs (Decidable (_ ∧ _))
  | .skip _ => inferInstanceAs (Decidable (_ ∧ _))
  | .report _ _ => inferInstanceAs (Decidable (_ ∧ _))
  | .message _ _ => inferInstanceAs (Decidable True)
  | .typing _ => inferInstanceAs (Decidable True)
  | .stopTyping _ => inferInstanceAs (Decidable True)
  | .disconnect c => inferInstanceAs (Decidable (c ∈ s.liveSockets))
  | .pingEv _ => inferInstanceAs (Decidable True)

/-- A legal event sequence for variant 1, starting from state `s`. -/
def LegalFrom1 (configured : Bool) (remoteOk : JsVal → Bool) :
    ServerState → List Ev → Prop
  | _, [] => True
  | s, e :: es =>
    LegalEv s e ∧ LegalFrom1 configured remoteOk (step1 configured remoteOk s e) es

instance instDecLegalFrom1 (cfg : Bool) (rok : JsVal → Bool) :
    (s : ServerState) → (evs : List Ev) → Decidable (LegalFrom1 cfg rok s evs)
  | _, [] => .isTrue trivial
  | s, e :: es =>
    @instDecidableAnd _ _ (instDecLegalEv s e)
      (instDecLegalFrom1 cfg rok (step1 cfg rok s e) es)

/-- A legal event sequence for variant 2, starting from state `s`. -/
def LegalFrom2 (configured : Bool) (remoteOk : JsVal → Bool) :
    ServerState → List Ev → Prop
  | _, [] => True
  | s, e :: es =>
    LegalEv s e ∧ LegalFrom2 configured remoteOk (step2 configured remoteOk s e) es

instance instDecLegalFrom2 (cfg : Bool) (rok : JsVal → Bool) :
    (s : ServerState) → (evs : List Ev) → Decidable (LegalFrom2 cfg rok s evs)
  | _, [] => .isTrue trivial
  | s, e :: es =>
    @instDecidableAnd _ _ (instDecLegalEv s e)
      (instDecLegalFrom2 cfg rok (step2 cfg rok s e) es)

/-- The message handler only touches `verified` and `totalMessages`. -/
theorem messageHandler_state (cfg : Bool) (rok : JsVal → Bool) (s : ServerState)
    (c : Nat) (d : MsgData) :
    ((messageHandler cfg rok s c d).1).waitingUsers = s.waitingUsers ∧
    ((messageHandler cfg rok s c d).1).connectedPairs = s.connectedPairs ∧
    ((messageHandler cfg rok s c d).1).liveSockets = s.liveSockets ∧
    ((messageHandler cfg rok s c d).1).clock = s.clock := by
  unfold messageHandler relayText
  cases findPartner s c with
  | none => exact ⟨rfl, rfl, rfl, rfl⟩
  | some p =>
    dsimp only
    split_ifs <;> exact ⟨rfl, rfl, rfl, rfl⟩

/-- `findAndPairUsers` (followed by the clock tick) preserves `Inv` when the
requester is live, unpaired, and not pooled. -/
theorem inv_findAndPair_bump {s : ServerState} (hInv : Inv s) {c : Nat}
    (hLive : c ∈ s.liveSockets) (hPair : s.connectedPairs c = none)
    (hNotW : c ∉ waitingIds s) :
    Inv { (findAndPairUsers s c).1 with
          clock := (findAndPairUsers s c).1.clock + 1 } := by
  cases hsp : spliceFirst (fun u => u.uid != c) s.waitingUsers with
  | some wr =>
    obtain ⟨w, rest⟩ := wr
    refine inv_pairUp hInv hsp ?_ ?_ ?_ ?_ hLive hPair hNotW
    · simp [findAndPairUsers, hsp]
    · simp [findAndPairUsers, hsp]
    · simp [findAndPairUsers, hsp]
    · simp [findAndPairUsers, hsp]
  | none =>
    refine inv_enqueueDedup hInv ?_ ?_ ?_ (le_refl _) ?_ hLive hPair
    · simp [findAndPairUsers, hsp, removeFromWaiting]
    · simp [findAndPairUsers, hsp, removeFromWaiting]
    · simp [findAndPairUsers, hsp, removeFromWaiting]
    · simp [findAndPairUsers, hsp, removeFromWaiting]

/-- Variant 1 `next`/`report` body (unpair, requeue the partner, re-match the
initiator, clock tick) preserves `Inv` for a live, un-pooled initiator. -/
theorem inv_nextReport {s : ServerState} (hInv : Inv s) {c : Nat}
    (hLive : c ∈ s.liveSockets) (hNotW : c ∉ waitingIds s) :
    Inv { (findAndPairUsers (disconnectPair s c).1 c).1 with
          clock := (findAndPairUsers (disconnectPair s c).1 c).1.clock + 1 } := by
  cases hfp : s.connectedPairs c with
  | none =>
    have hD : (disconnectPair s c).1 = s := by
      simp [disconnectPair, findPartner, hfp]
    rw [hD]
    exact inv_findAndPair_bump hInv hLive hfp hNotW
  | some p =>
    have hne : c ≠ p := fun h => hInv.noSelf c (by rw [← h] at hfp; exact hfp)
    have hplive : p ∈ s.liveSockets := (hInv.pairLive c p hfp).2
    have hMInv : Inv { s with
        connectedPairs := mapDelete (mapDelete s.connectedPairs c) p } :=
      inv_unpair hInv hfp (List.Sublist.refl _) rfl (fun x hx _ => hx) (le_refl _)
    have hJInv : Inv { s with
        connectedPairs := mapDelete (mapDelete s.connectedPairs c) p
        waitingUsers := s.waitingUsers.filter (fun u => u.uid != p) ++
          [⟨p, s.clock⟩] } := by
      refine inv_enqueueDedup hMInv rfl rfl rfl (le_refl _) (le_refl _) hplive ?_
      show mapDelete (mapDelete s.connectedPairs c) p p = none
      simp [mapDelete]
    have hD : (disconnectPair s c).1 = { s with
        connectedPairs := mapDelete (mapDelete s.connectedPairs c) p
        waitingUsers := s.waitingUsers.filter (fun u => u.uid != p) ++
          [⟨p, s.clock⟩] } := by
      simp [disconnectPair, findPartner, hfp, removeFromWaiting, hplive]
    rw [hD]
    refine inv_findAndPair_bump hJInv hLive (by simp [mapDelete]) ?_
    simp only [waitingIds, List.map_append, List.mem_append, List.map_cons,
      List.map_nil]
    rintro (hm | hm)
    · obtain ⟨u, hu, huid⟩ := List.mem_map.mp hm
      exact hNotW (huid ▸ List.mem_map_of_mem _ ((List.filter_sublist _).subset hu))
    · exact hne (List.mem_singleton.mp hm)

/-- Variant 1: every legal event preserves the invariant. -/
theorem inv_step1 {cfg : Bool} {rok : JsVal → Bool} {s : ServerState} {e : Ev}
    (hInv : Inv s) (hLeg : LegalEv s e) : Inv (step1 cfg rok s e) := by
  cases e with
  | connect c =>
    exact inv_transfer hInv rfl rfl (fun x hx => List.mem_cons_of_mem _ hx)
      (Nat.le_succ _)
  | join c =>
    obtain ⟨h1, h2, h3⟩ := hLeg
    exact inv_findAndPair_bump hInv h1 h2 h3
  | message c d =>
    obtain ⟨hw, hp, hl, hc⟩ := messageHandler_state cfg rok s c d
    refine inv_transfer hInv hw hp ?_ ?_
    · intro x hx
      show x ∈ ((messageHandler cfg rok s c d).1).liveSockets
      rw [hl]; exact hx
    · show s.clock ≤ ((messageHandler cfg rok s c d).1).clock + 1
      rw [hc]; exact Nat.le_succ _
  | typing c =>
    have ht : (typingHandler s c).1 = s := by
      unfold typingHandler; cases findPartner s c <;> rfl
    show Inv { (typingHandler s c).1 with clock := (typingHandler s c).1.clock + 1 }
    rw [ht]
    exact inv_transfer hInv rfl rfl (fun x hx => hx) (Nat.le_succ _)
  | stopTyping c =>
    have ht : (stopTypingHandler s c).1 = s := by
      unfold stopTypingHandler; cases findPartner s c <;> rfl
    show Inv { (stopTypingHandler s c).1 with
      clock := (stopTypingHandler s c).1.clock + 1 }
    rw [ht]
    exact inv_transfer hInv rfl rfl (fun x hx => hx) (Nat.le_succ _)
  | next c =>
    obtain ⟨h1, h2⟩ := hLeg
    exact inv_nextReport hInv h1 h2
  | skip c =>
    exact inv_transfer hInv rfl rfl (fun x hx => hx) (Nat.le_succ _)
  | report c r =>
    obtain ⟨h1, h2⟩ := hLeg
    exact inv_nextReport hInv h1 h2
  | disconnect c =>
    cases hfp : s.connectedPairs c with
    | none =>
      have hD : (step1 cfg rok s (.disconnect c)) = { s with
          activeUsers := s.activeUsers - 1
          liveSockets := s.liveSockets.filter (fun x => x != c)
          waitingUsers := s.waitingUsers.filter (fun u => u.uid != c)
          clock := s.clock + 1 } := by
        simp [step1, handleEvent1, disconnectPair, findPartner,
          removeFromWaiting, hfp]
      rw [hD]
      refine inv_shrinkLive hInv hfp rfl rfl ?_ (Nat.le_succ _)
      intro x hx hxc
      exact List.mem_filter.mpr ⟨hx, by simpa using hxc⟩
    | some p =>
      have hne : c ≠ p := fun h => hInv.noSelf c (by rw [← h] at hfp; exact hfp)
      have hplive : p ∈ s.liveSockets := (hInv.pairLive c p hfp).2
      have hplive2 : p ∈ s.liveSockets.filter (fun x => x != c) :=
        List.mem_filter.mpr ⟨hplive, by simpa using hne.symm⟩
      have hMInv : Inv { s with
          activeUsers := s.activeUsers - 1
          liveSockets := s.liveSockets.filter (fun x => x != c)
          waitingUsers := s.waitingUsers.filter (fun u => u.uid != c)
          connectedPairs := mapDelete (mapDelete s.connectedPairs c) p } := by
        refine inv_unpair hInv hfp (List.filter_sublist _) rfl ?_ (le_refl _)
        intro x hx hxc
        exact List.mem_filter.mpr ⟨hx, by simpa using hxc⟩
      have hJInv : Inv { s with
          activeUsers := s.activeUsers - 1
          liveSockets := s.liveSockets.filter (fun x => x != c)
          connectedPairs := mapDelete (mapDelete s.connectedPairs c) p
          waitingUsers :=
            (s.waitingUsers.filter (fun u => u.uid != c)).filter
              (fun u => u.uid != p) ++ [⟨p, s.clock⟩] } := by
        refine inv_enqueueDedup hMInv rfl rfl rfl (le_refl _) (le_refl _) hplive2 ?_
        show mapDelete (mapDelete s.connectedPairs c) p p = none
        simp [mapDelete]
      have hD : (step1 cfg rok s (.disconnect c)) = { s with
          activeUsers := s.activeUsers - 1
          liveSockets := s.liveSockets.filter (fun x => x != c)
          connectedPairs := mapDelete (mapDelete s.connectedPairs c) p
          waitingUsers :=
            (s.waitingUsers.filter (fun u => u.uid != c)).filter
              (fun u => u.uid != p) ++ [⟨p, s.clock⟩]
          clock := s.clock + 1 } := by
        simp [step1, handleEvent1, disconnectPair, findPartner,
          removeFromWaiting, hfp, hplive2]
      rw [hD]
      exact inv_transfer hJInv rfl rfl (fun x hx => hx) (Nat.le_succ _)
  | pingEv c =>
    exact inv_transfer hInv rfl rfl (fun x hx => hx) (Nat.le_succ _)

/-- Variant 2 `join` handler (with clock tick) preserves `Inv` for a live,
idle requester. -/
theorem inv_joinHandler2_bump {s : ServerState} (hInv : Inv s) {c : Nat}
    (hLive : c ∈ s.liveSockets) (hPair : s.connectedPairs c = none)
    (hNotW : c ∉ waitingIds s) :
    Inv { (joinHandler2 s c).1 with clock := (joinHandler2 s c).1.clock + 1 } := by
  have hfe : s.waitingUsers.filter (fun u => u.uid != c) = s.waitingUsers := by
    apply List.filter_eq_self.mpr
    intro u hu
    have huc : u.uid ≠ c := fun h => hNotW (h ▸ List.mem_map_of_mem _ hu)
    simpa using huc
  by_cases hlen : s.waitingUsers.length > 0
  · cases hsp : spliceFirst (fun u => u.uid != c) s.waitingUsers with
    | some wr =>
      obtain ⟨w, rest⟩ := wr
      refine inv_pairUp hInv hsp ?_ ?_ ?_ ?_ hLive hPair hNotW <;>
        simp [joinHandler2, hlen, hsp]
    | none =>
      refine inv_enqueueDedup hInv ?_ ?_ ?_ (le_refl _) ?_ hLive hPair <;>
        simp [joinHandler2, hlen, hsp, hfe]
  · refine inv_enqueueDedup hInv ?_ ?_ ?_ (le_refl _) ?_ hLive hPair <;>
      simp [joinHandler2, hlen, hfe]

/-- Variant 2: every legal event preserves the invariant. -/
theorem inv_step2 {cfg : Bool} {rok : JsVal → Bool} {s : ServerState} {e : Ev}
    (hInv : Inv s) (hLeg : LegalEv s e) : Inv (step2 cfg rok s e) := by
  cases e with
  | connect c =>
    exact inv_transfer hInv rfl rfl (fun x hx => List.mem_cons_of_mem _ hx)
      (Nat.le_succ _)
  | join c =>
    obtain ⟨h1, h2, h3⟩ := hLeg
    exact inv_joinHandler2_bump hInv h1 h2 h3
  | message c d =>
    obtain ⟨hw, hp, hl, hc⟩ := messageHandler_state cfg rok s c d
    refine inv_transfer hInv hw hp ?_ ?_
    · intro x hx
      show x ∈ ((messageHandler cfg rok s c d).1).liveSockets
      rw [hl]; exact hx
    · show s.clock ≤ ((messageHandler cfg rok s c d).1).clock + 1
      rw [hc]; exact Nat.le_succ _
  | typing c =>
    have ht : (typingHandler s c).1 = s := by
      unfold typingHandler; cases findPartner s c <;> rfl
    show Inv { (typingHandler s c).1 with clock := (typingHandler s c).1.clock + 1 }
    rw [ht]
    exact inv_transfer hInv rfl rfl (fun x hx => hx) (Nat.le_succ _)
  | stopTyping c =>
    have ht : (stopTypingHandler s c).1 = s := by
      unfold stopTypingHandler; cases findPartner s c <;> rfl
    show Inv { (stopTypingHandler s c).1 with
      clock := (stopTypingHandler s c).1.clock + 1 }
    rw [ht]
    exact inv_transfer hInv rfl rfl (fun x hx => hx) (Nat.le_succ _)
  | next c =>
    cases hfp : s.connectedPairs c with
    | none =>
      have hD : (step2 cfg rok s (.next c)) = { s with
          waitingUsers := s.waitingUsers.filter (fun u => u.uid != c)
          clock := s.clock + 1 } := by
        simp [step2, handleEvent2, disconnectPair2, findPartner,
          removeFromWaiting, hfp]
      rw [hD]
      exact inv_shrinkLive hInv hfp rfl rfl (fun x hx _ => hx) (Nat.le_succ _)
    | some p =>
      have hD : (step2 cfg rok s (.next c)) = { s with
          connectedPairs := mapDelete (mapDelete s.connectedPairs c) p
          waitingUsers := s.waitingUsers.filter (fun u => u.uid != c)
          clock := s.clock + 1 } := by
        simp [step2, handleEvent2, disconnectPair2, findPartner,
          removeFromWaiting, hfp]
      rw [hD]
      exact inv_unpair hInv hfp (List.filter_sublist _) rfl
        (fun x hx _ => hx) (Nat.le_succ _)
  | skip c =>
    cases hfp : s.connectedPairs c with
    | none =>
      have hD : (step2 cfg rok s (.skip c)) = { s with
          waitingUsers := s.waitingUsers.filter (fun u => u.uid != c)
          clock := s.clock + 1 } := by
        simp [step2, handleEvent2, disconnectPair2, findPartner,
          removeFromWaiting, hfp]
      rw [hD]
      exact inv_shrinkLive hInv hfp rfl rfl (fun x hx _ => hx) (Nat.le_succ _)
    | some p =>
      have hD : (step2 cfg rok s (.skip c)) = { s with
          connectedPairs := mapDelete (mapDelete s.connectedPairs c) p
          waitingUsers := s.waitingUsers.filter (fun u => u.uid != c)
          clock := s.clock + 1 } := by
        simp [step2, handleEvent2, disconnectPair2, findPartner,
          removeFromWaiting, hfp]
      rw [hD]
      exact inv_unpair hInv hfp (List.filter_sublist _) rfl
        (fun x hx _ => hx) (Nat.le_succ _)
  | report c r =>
    cases hfp : s.connectedPairs c with
    | none =>
      have hD : (step2 cfg rok s (.report c r)) = { s with
          clock := s.clock + 1 } := by
        simp [step2, handleEvent2, disconnectPair2, findPartner, hfp]
      rw [hD]
      exact inv_transfer hInv rfl rfl (fun x hx => hx) (Nat.le_succ _)
    | some p =>
      have hD : (step2 cfg rok s (.report c r)) = { s with
          connectedPairs := mapDelete (mapDelete s.connectedPairs c) p
          clock := s.clock + 1 } := by
        simp [step2, handleEvent2, disconnectPair2, findPartner, hfp]
      rw [hD]
      exact inv_unpair hInv hfp (List.Sublist.refl _) rfl
        (fun x hx _ => hx) (Nat.le_succ _)
  | disconnect c =>
    cases hfp : s.connectedPairs c with
    | none =>
      have hD : (step2 cfg rok s (.disconnect c)) = { s with
          activeUsers := s.activeUsers - 1
          liveSockets := s.liveSockets.filter (fun x => x != c)
          waitingUsers := s.waitingUsers.filter (fun u => u.uid != c)
          clock := s.clock + 1 } := by
        simp [step2, handleEvent2, disconnectPair2, findPartner,
          removeFromWaiting, hfp]
      rw [hD]
      refine inv_shrinkLive hInv hfp rfl rfl ?_ (Nat.le_succ _)
      intro x hx hxc
      exact List.mem_filter.mpr ⟨hx, by simpa using hxc⟩
    | some p =>
      have hD : (step2 cfg rok s (.disconnect c)) = { s with
          activeUsers := s.activeUsers - 1
          liveSockets := s.liveSockets.filter (fun x => x != c)
          connectedPairs := mapDelete (mapDelete s.connectedPairs c) p
          waitingUsers := s.waitingUsers.filter (fun u => u.uid != c)
          clock := s.clock + 1 } := by
        simp [step2, handleEvent2, disconnectPair2, findPartner,
          removeFromWaiting, hfp]
      rw [hD]
      refine inv_unpair hInv hfp (List.filter_sublist _) rfl ?_ (Nat.le_succ _)
      intro x hx hxc
      exact List.mem_filter.mpr ⟨hx, by simpa using hxc⟩
  | pingEv c =>
    exact inv_transfer hInv rfl rfl (fun x hx => hx) (Nat.le_succ _)

/-- Variant 1: the invariant holds along every legal run. -/
theorem inv_runFrom1 {cfg : Bool} {rok : JsVal → Bool} :
    ∀ {evs : List Ev} {s : ServerState}, Inv s → LegalFrom1 cfg rok s evs →
      Inv (List.foldl (step1 cfg rok) s evs)
  | [], _, hInv, _ => hInv
  | e :: es, s, hInv, hLeg =>
    @inv_runFrom1 cfg rok es (step1 cfg rok s e) (inv_step1 hInv hLeg.1) hLeg.2

/-- Variant 1: the invariant holds at the end of every legal run from the
initial state. -/
theorem inv_run1 {cfg : Bool} {rok : JsVal → Bool} {evs : List Ev}
    (h : LegalFrom1 cfg rok initState evs) : Inv (run1 cfg rok evs) :=
  inv_runFrom1 initState_inv h

/-- Variant 2: the invariant holds along every legal run. -/
theorem inv_runFrom2 {cfg : Bool} {rok : JsVal → Bool} :
    ∀ {evs : List Ev} {s : ServerState}, Inv s → LegalFrom2 cfg rok s evs →
      Inv (List.foldl (step2 cfg rok) s evs)
  | [], _, hInv, _ => hInv
  | e :: es, s, hInv, hLeg =>
    @inv_runFrom2 cfg rok es (step2 cfg rok s e) (inv_step2 hInv hLeg.1) hLeg.2

/-- Variant 2: the invariant holds at the end of every legal run from the
initial state. -/
theorem inv_run2 {cfg : Bool} {rok : JsVal → Bool} {evs : List Ev}
    (h : LegalFrom2 cfg rok initState evs) : Inv (run2 cfg rok evs) :=
  inv_runFrom2 initState_inv h

/-! ## Variant 1 never duplicates a waiting identity, on any trace -/

/-- No identity occurs twice in the Waiting Pool. -/
def NodupW (s : ServerState) : Prop := (waitingIds s).Nodup

theorem nodup_dedupPush {l : List WaitingUser} {c t : Nat}
    (h : (l.map (·.uid)).Nodup) :
    ((l.filter (fun u => u.uid != c) ++ [(⟨c, t⟩ : WaitingUser)]).map
      (·.uid)).Nodup := by
  rw [List.map_append]
  apply List.Nodup.append
  · exact ((List.filter_sublist _).map _).nodup h
  · simp
  · intro x hx hx2
    simp only [List.map_cons, List.map_nil, List.mem_singleton] at hx2
    subst hx2
    obtain ⟨u, hu, huid⟩ := List.mem_map.mp hx
    have hq := (List.mem_filter.mp hu).2
    rw [huid] at hq
    simp at hq

theorem nodupW_findAndPairUsers {s : ServerState} (c : Nat) (h : NodupW s) :
    NodupW (findAndPairUsers s c).1 := by
  unfold NodupW waitingIds at h ⊢
  cases hsp : spliceFirst (fun u => u.uid != c) s.waitingUsers with
  | some wr =>
    obtain ⟨w, rest⟩ := wr
    have hsub := spliceFirst_rest_sublist hsp
    simp only [findAndPairUsers, hsp]
    exact ((hsub.map _).nodup) h
  | none =>
    simp only [findAndPairUsers, hsp, removeFromWaiting]
    exact nodup_dedupPush h

theorem nodupW_disconnectPair {s : ServerState} (c : Nat) (h : NodupW s) :
    NodupW (disconnectPair s c).1 := by
  cases hfp : s.connectedPairs c with
  | none =>
    have hD : (disconnectPair s c).1 = s := by
      simp [disconnectPair, findPartner, hfp]
    rw [hD]; exact h
  | some p =>
    by_cases hpl : p ∈ s.liveSockets
    · have hD : (disconnectPair s c).1 = { s with
          connectedPairs := mapDelete (mapDelete s.connectedPairs c) p
          waitingUsers := s.waitingUsers.filter (fun u => u.uid != p) ++
            [⟨p, s.clock⟩] } := by
        simp [disconnectPair, findPartner, hfp, removeFromWaiting, hpl]
      rw [hD]
      exact nodup_dedupPush h
    · have hD : (disconnectPair s c).1 = { s with
          connectedPairs := mapDelete (mapDelete s.connectedPairs c) p } := by
        simp [disconnectPair, findPartner, hfp, hpl]
      rw [hD]
      exact h

theorem nodupW_step1 {cfg : Bool} {rok : JsVal → Bool} {s : ServerState}
    {e : Ev} (h : NodupW s) : NodupW (step1 cfg rok s e) := by
  cases e with
  | connect c => exact h
  | join c => exact nodupW_findAndPairUsers c h
  | message c d =>
    have hw := (messageHandler_state cfg rok s c d).1
    show (((messageHandler cfg rok s c d).1).waitingUsers.map (·.uid)).Nodup
    rw [hw]; exact h
  | typing c =>
    have ht : (typingHandler s c).1 = s := by
      unfold typingHandler; cases findPartner s c <;> rfl
    show (((typingHandler s c).1).waitingUsers.map (·.uid)).Nodup
    rw [ht]; exact h
  | stopTyping c =>
    have ht : (stopTypingHandler s c).1 = s := by
      unfold stopTypingHandler; cases findPartner s c <;> rfl
    show (((stopTypingHandler s c).1).waitingUsers.map (·.uid)).Nodup
    rw [ht]; exact h
  | next c =>
    exact nodupW_findAndPairUsers c (nodupW_disconnectPair c h)
  | skip c => exact h
  | report c r =>
    exact nodupW_findAndPairUsers c (nodupW_disconnectPair c h)
  | disconnect c =>
    refine nodupW_disconnectPair c ?_
    show ((s.waitingUsers.filter (fun u => u.uid != c)).map (·.uid)).Nodup
    exact (((List.filter_sublist _).map _).nodup) h
  | pingEv c => exact h

theorem nodupW_runFrom1 {cfg : Bool} {rok : JsVal → Bool} :
    ∀ (evs : List Ev) (s : ServerState), NodupW s →
      NodupW (List.foldl (step1 cfg rok) s evs)
  | [], _, h => h
  | e :: es, s, h => nodupW_runFrom1 es (step1 cfg rok s e) (nodupW_step1 h)

/-- Variant 1: on every trace whatsoever, the Waiting Pool never holds the
same identity twice. -/
theorem nodupW_run1 (cfg : Bool) (rok : JsVal → Bool) (evs : List Ev) :
    NodupW (run1 cfg rok evs) :=
  nodupW_runFrom1 evs initState (by simp [NodupW, waitingIds, initState])

/-! ## Claims -/

/-- C1 (counterexample): the Pairing Table does not stay symmetric under every
join/skip/report/disconnect sequence from the empty state. After pairing 0
with 1, queueing 2, and a second `join` from the still-paired socket 0,
variant 1 maps 1 to 0 while 0 now maps to 2, so symmetry is broken (the same
trace breaks variant 2 as well). -/
theorem c1_pairing_symmetry_counterexample :
    (run1 false (fun _ => false)
        [.connect 0, .connect 1, .connect 2, .join 0, .join 1, .join 2,
         .join 0]).connectedPairs 1 = some 0 ∧
    ¬ (run1 false (fun _ => false)
        [.connect 0, .connect 1, .connect 2, .join 0, .join 1, .join 2,
         .join 0]).connectedPairs 0 = some 1 := by decide

/-- C1 (amended): for every legal event sequence from the empty state — one
in which a socket joins only while neither paired nor queued, and
skips/reports only while not queued — the Pairing Table is symmetric and
self-pair-free after every event, in both variants. -/
theorem c1_pairing_symmetric_selfpairfree (cfg : Bool) (rok : JsVal → Bool)
    (evs : List Ev) :
    (LegalFrom1 cfg rok initState evs →
      ∀ a b, (run1 cfg rok evs).connectedPairs a = some b →
        (run1 cfg rok evs).connectedPairs b = some a ∧ a ≠ b) ∧
    (LegalFrom2 cfg rok initState evs →
      ∀ a b, (run2 cfg rok evs).connectedPairs a = some b →
        (run2 cfg rok evs).connectedPairs b = some a ∧ a ≠ b) := by
  constructor
  · intro h a b hab
    have hInv := inv_run1 h
    exact ⟨hInv.sym a b hab, fun hEq => hInv.noSelf b (hEq ▸ hab)⟩
  · intro h a b hab
    have hInv := inv_run2 h
    exact ⟨hInv.sym a b hab, fun hEq => hInv.noSelf b (hEq ▸ hab)⟩

/-- C1 (witness): the amended statement instantiated on the concrete legal
trace `connect 0, connect 1, join 0, join 1`, after which 0 is paired with 1. -/
theorem c1_pairing_symmetric_selfpairfree_witness :
    LegalFrom1 false (fun _ => false) initState
      [.connect 0, .connect 1, .join 0, .join 1] ∧
    (run1 false (fun _ => false)
      [.connect 0, .connect 1, .join 0, .join 1]).connectedPairs 0 = some 1 ∧
    ((run1 false (fun _ => false)
      [.connect 0, .connect 1, .join 0, .join 1]).connectedPairs 1 = some 0 ∧
      (0 : Nat) ≠ 1) :=
  ⟨by decide, by decide,
    (c1_pairing_symmetric_selfpairfree false (fun _ => false)
      [.connect 0, .connect 1, .join 0, .join 1]).1 (by decide) 0 1 (by decide)⟩

/-- C2 (counterexample): a connection identity can be in the Waiting Pool and
the Pairing Table at once. After 0 and 1 are paired, a second `join` from the
still-paired socket 0 finds no candidate and enqueues 0, so 0 is
simultaneously a Pairing Table key and a pool entry (variant 1; variant 2 has
the same defect). -/
theorem c2_disjointness_counterexample :
    (run1 false (fun _ => false)
      [.connect 0, .connect 1, .join 0, .join 1, .join 0]).connectedPairs 0 =
        some 1 ∧
    0 ∈ waitingIds (run1 false (fun _ => false)
      [.connect 0, .connect 1, .join 0, .join 1, .join 0]) := by decide

/-- C2 (amended): for every legal event sequence from the empty state — one
in which a socket joins only while neither paired nor queued, and
skips/reports only while not queued — no identity is simultaneously in the
Waiting Pool and a key of the Pairing Table, in both variants. -/
theorem c2_pool_pairs_disjoint (cfg : Bool) (rok : JsVal → Bool)
    (evs : List Ev) :
    (LegalFrom1 cfg rok initState evs →
      ∀ x, x ∈ waitingIds (run1 cfg rok evs) →
        (run1 cfg rok evs).connectedPairs x = none) ∧
    (LegalFrom2 cfg rok initState evs →
      ∀ x, x ∈ waitingIds (run2 cfg rok evs) →
        (run2 cfg rok evs).connectedPairs x = none) := by
  constructor
  · intro h x hx
    obtain ⟨u, hu, huid⟩ := List.mem_map.mp hx
    exact huid ▸ (inv_run1 h).disj u hu
  · intro h x hx
    obtain ⟨u, hu, huid⟩ := List.mem_map.mp hx
    exact huid ▸ (inv_run2 h).disj u hu

/-- C2 (witness): the amended statement instantiated on the concrete legal
trace `connect 0, join 0`, after which 0 waits in the pool. -/
theorem c2_pool_pairs_disjoint_witness :
    LegalFrom1 false (fun _ => false) initState [.connect 0, .join 0] ∧
    0 ∈ waitingIds (run1 false (fun _ => false) [.connect 0, .join 0]) ∧
    (run1 false (fun _ => false) [.connect 0, .join 0]).connectedPairs 0 =
      none :=
  ⟨by decide, by decide,
    (c2_pool_pairs_disjoint false (fun _ => false)
      [.connect 0, .join 0]).1 (by decide) 0 (by decide)⟩

/-- C3 (counterexample): in variant 2, a duplicate `join` from a connection
already in the Waiting Pool does not leave at most one entry: after
`connect 0, join 0`, socket 0 is in the pool, and a second `join 0` appends
a second entry, leaving two entries for identity 0. -/
theorem c3_duplicate_join_counterexample :
    0 ∈ waitingIds (run2 false (fun _ => false) [.connect 0, .join 0]) ∧
    (waitingIds (run2 false (fun _ => false)
      [.connect 0, .join 0, .join 0])).count 0 = 2 := by decide

/-- C3 (amended): in variant 1, handling another `join` from a connection
already in the Waiting Pool leaves at most one entry for it, on every trace;
in variant 2, a duplicate `join` from a connection that is the sole waiting
identity instead appends a second entry for it. -/
theorem c3_duplicate_join_single_entry (cfg : Bool) (rok : JsVal → Bool) :
    (∀ (evs : List Ev) (c : Nat),
      c ∈ waitingIds (run1 cfg rok evs) →
      (waitingIds (run1 cfg rok (evs ++ [.join c]))).count c ≤ 1) ∧
    (∀ (evs : List Ev) (c : Nat),
      c ∈ waitingIds (run2 cfg rok evs) →
      (∀ x ∈ waitingIds (run2 cfg rok evs), x = c) →
      waitingIds (run2 cfg rok (evs ++ [.join c])) =
        waitingIds (run2 cfg rok evs) ++ [c]) := by
  constructor
  · intro evs c _
    have hnd := nodupW_run1 cfg rok (evs ++ [.join c])
    exact List.nodup_iff_count_le_one.mp hnd c
  · intro evs c hc hall
    have hrw : run2 cfg rok (evs ++ [Ev.join c]) =
        step2 cfg rok (run2 cfg rok evs) (Ev.join c) := by
      simp [run2, List.foldl_append]
    rw [hrw]
    set s := run2 cfg rok evs with hs
    have hne : s.waitingUsers ≠ [] := by
      rcases List.mem_map.mp hc with ⟨u, hu, _⟩
      exact List.ne_nil_of_mem hu
    have hlen : 0 < s.waitingUsers.length := List.length_pos.mpr hne
    have hsp : spliceFirst (fun u => u.uid != c) s.waitingUsers = none := by
      apply spliceFirst_none.mpr
      intro u hu
      have huc : u.uid = c := hall u.uid (List.mem_map_of_mem _ hu)
      simp [huc]
    show waitingIds (step2 cfg rok s (.join c)) = waitingIds s ++ [c]
    simp [step2, handleEvent2, joinHandler2, hlen, hsp, waitingIds]

/-- C3 (witness): both parts of the amended statement instantiated on the
concrete trace `connect 0, join 0` followed by a duplicate `join 0`. -/
theorem c3_duplicate_join_single_entry_witness :
    0 ∈ waitingIds (run1 false (fun _ => false) [.connect 0, .join 0]) ∧
    (waitingIds (run1 false (fun _ => false)
      ([Ev.connect 0, Ev.join 0] ++ [Ev.join 0]))).count 0 ≤ 1 ∧
    0 ∈ waitingIds (run2 false (fun _ => false) [.connect 0, .join 0]) ∧
    (∀ x ∈ waitingIds (run2 false (fun _ => false) [.connect 0, .join 0]),
      x = 0) ∧
    waitingIds (run2 false (fun _ => false)
      ([Ev.connect 0, Ev.join 0] ++ [Ev.join 0])) =
      waitingIds (run2 false (fun _ => false) [Ev.connect 0, Ev.join 0]) ++
        [0] :=
  ⟨by decide, (c3_duplicate_join_single_entry false (fun _ => false)).1
      [Ev.connect 0, Ev.join 0] 0 (by decide),
   by decide, by decide,
   (c3_duplicate_join_single_entry false (fun _ => false)).2
      [Ev.connect 0, Ev.join 0] 0 (by decide) (by decide)⟩

/-- C4 (counterexample): handling a disconnect does not always re-enqueue the
abandoned partner. In variant 2, after 0 and 1 are paired, 0's disconnect
emits only `partnerDisconnected` to 1 — no `searching` — and leaves the
Waiting Pool empty, so 1 is not returned to search. -/
theorem c4_disconnect_requeue_counterexample :
    (run2 false (fun _ => false)
      [.connect 0, .connect 1, .join 0, .join 1]).connectedPairs 0 = some 1 ∧
    (handleEvent2 false (fun _ => false)
        (run2 false (fun _ => false) [.connect 0, .connect 1, .join 0, .join 1])
        (.disconnect 0)).2 = [Emit.toSock 1 .partnerDisconnectedMsg] ∧
    waitingIds (run2 false (fun _ => false)
        [.connect 0, .connect 1, .join 0, .join 1, .disconnect 0]) = [] := by
  decide

/-- C4 (amended): on every legal reachable state in which A is paired with B,
handling A's disconnect removes both directions of the pair and notifies B
`partnerDisconnected`; variant 1 then always re-enqueues B and notifies it
`searching`, while variant 2 leaves B idle (it is not re-enqueued and gets no
`searching`). -/
theorem c4_disconnect_requeue_policy (cfg : Bool) (rok : JsVal → Bool)
    (evs : List Ev) (A B : Nat) :
    (LegalFrom1 cfg rok initState evs →
      (run1 cfg rok evs).connectedPairs A = some B →
      ((handleEvent1 cfg rok (run1 cfg rok evs)
          (.disconnect A)).1.connectedPairs A = none ∧
       (handleEvent1 cfg rok (run1 cfg rok evs)
          (.disconnect A)).1.connectedPairs B = none ∧
       B ∈ waitingIds (handleEvent1 cfg rok (run1 cfg rok evs)
          (.disconnect A)).1 ∧
       (handleEvent1 cfg rok (run1 cfg rok evs) (.disconnect A)).2 =
         [Emit.toSock B .partnerDisconnectedMsg,
          Emit.toSock B .searchingMsg])) ∧
    (LegalFrom2 cfg rok initState evs →
      (run2 cfg rok evs).connectedPairs A = some B →
      ((handleEvent2 cfg rok (run2 cfg rok evs)
          (.disconnect A)).1.connectedPairs A = none ∧
       (handleEvent2 cfg rok (run2 cfg rok evs)
          (.disconnect A)).1.connectedPairs B = none ∧
       B ∉ waitingIds (handleEvent2 cfg rok (run2 cfg rok evs)
          (.disconnect A)).1 ∧
       (handleEvent2 cfg rok (run2 cfg rok evs) (.disconnect A)).2 =
         [Emit.toSock B .partnerDisconnectedMsg])) := by
  constructor
  · intro h hAB
    have hInv := inv_run1 h
    set s := run1 cfg rok evs with hs
    have hne : A ≠ B := fun hEq => hInv.noSelf B (hEq ▸ hAB)
    have hBlive : B ∈ s.liveSockets := (hInv.pairLive A B hAB).2
    have hBlive2 : B ∈ s.liveSockets.filter (fun x => x != A) :=
      List.mem_filter.mpr ⟨hBlive, by simpa using Ne.symm hne⟩
    have hD : handleEvent1 cfg rok s (.disconnect A) = ({ s with
        activeUsers := s.activeUsers - 1
        liveSockets := s.liveSockets.filter (fun x => x != A)
        connectedPairs := mapDelete (mapDelete s.connectedPairs A) B
        waitingUsers :=
          (s.waitingUsers.filter (fun u => u.uid != A)).filter
            (fun u => u.uid != B) ++ [⟨B, s.clock⟩] },
      [Emit.toSock B .partnerDisconnectedMsg, Emit.toSock B .searchingMsg]) := by
      simp [handleEvent1, disconnectPair, findPartner, removeFromWaiting,
        hAB, hBlive2]
    rw [hD]
    refine ⟨?_, ?_, ?_, rfl⟩
    · show mapDelete (mapDelete s.connectedPairs A) B A = none
      simp [mapDelete]
    · show mapDelete (mapDelete s.connectedPairs A) B B = none
      simp [mapDelete]
    · simp [waitingIds]
  · intro h hAB
    have hInv := inv_run2 h
    set s := run2 cfg rok evs with hs
    have hD : handleEvent2 cfg rok s (.disconnect A) = ({ s with
        activeUsers := s.activeUsers - 1
        liveSockets := s.liveSockets.filter (fun x => x != A)
        connectedPairs := mapDelete (mapDelete s.connectedPairs A) B
        waitingUsers := s.waitingUsers.filter (fun u => u.uid != A) },
      [Emit.toSock B .partnerDisconnectedMsg]) := by
      simp [handleEvent2, disconnectPair2, findPartner, removeFromWaiting, hAB]
    rw [hD]
    refine ⟨?_, ?_, ?_, rfl⟩
    · show mapDelete (mapDelete s.connectedPairs A) B A = none
      simp [mapDelete]
    · show mapDelete (mapDelete s.connectedPairs A) B B = none
      simp [mapDelete]
    · intro hmem
      obtain ⟨u, hu, huid⟩ := List.mem_map.mp hmem
      have hu2 : u ∈ s.waitingUsers := (List.filter_sublist _).subset hu
      have hd := hInv.disj u hu2
      rw [huid] at hd
      rw [hInv.sym A B hAB] at hd
      cases hd

/-- C4 (witness): both parts instantiated on the legal trace
`connect 0, connect 1, join 0, join 1` (pairing 0 with 1) followed by 0's
disconnect. -/
theorem c4_disconnect_requeue_policy_witness :
    LegalFrom1 false (fun _ => false) initState
      [.connect 0, .connect 1, .join 0, .join 1] ∧
    (run1 false (fun _ => false)
      [.connect 0, .connect 1, .join 0, .join 1]).connectedPairs 0 = some 1 ∧
    ((handleEvent1 false (fun _ => false)
        (run1 false (fun _ => false) [.connect 0, .connect 1, .join 0, .join 1])
        (.disconnect 0)).1.connectedPairs 0 = none ∧
     (handleEvent1 false (fun _ => false)
        (run1 false (fun _ => false) [.connect 0, .connect 1, .join 0, .join 1])
        (.disconnect 0)).1.connectedPairs 1 = none ∧
     1 ∈ waitingIds (handleEvent1 false (fun _ => false)
        (run1 false (fun _ => false) [.connect 0, .connect 1, .join 0, .join 1])
        (.disconnect 0)).1 ∧
     (handleEvent1 false (fun _ => false)
        (run1 false (fun _ => false) [.connect 0, .connect 1, .join 0, .join 1])
        (.disconnect 0)).2 =
       [Emit.toSock 1 .partnerDisconnectedMsg, Emit.toSock 1 .searchingMsg]) ∧
    LegalFrom2 false (fun _ => false) initState
      [.connect 0, .connect 1, .join 0, .join 1] ∧
    (run2 false (fun _ => false)
      [.connect 0, .connect 1, .join 0, .join 1]).connectedPairs 0 = some 1 ∧
    ((handleEvent2 false (fun _ => false)
        (run2 false (fun _ => false) [.connect 0, .connect 1, .join 0, .join 1])
        (.disconnect 0)).1.connectedPairs 0 = none ∧
     (handleEvent2 false (fun _ => false)
        (run2 false (fun _ => false) [.connect 0, .connect 1, .join 0, .join 1])
        (.disconnect 0)).1.connectedPairs 1 = none ∧
     1 ∉ waitingIds (handleEvent2 false (fun _ => false)
        (run2 false (fun _ => false) [.connect 0, .connect 1, .join 0, .join 1])
        (.disconnect 0)).1 ∧
     (handleEvent2 false (fun _ => false)
        (run2 false (fun _ => false) [.connect 0, .connect 1, .join 0, .join 1])
        (.disconnect 0)).2 = [Emit.toSock 1 .partnerDisconnectedMsg]) :=
  ⟨by decide, by decide,
   (c4_disconnect_requeue_policy false (fun _ => false)
      [.connect 0, .connect 1, .join 0, .join 1] 0 1).1 (by decide) (by decide),
   by decide, by decide,
   (c4_disconnect_requeue_policy false (fun _ => false)
      [.connect 0, .connect 1, .join 0, .join 1] 0 1).2 (by decide) (by decide)⟩

/-- C5 (counterexample): handling a report does not leave the reported
partner un-requeued and the reporter idle. In variant 1, after 0 and 1 are
paired, 0's report re-enqueues the reported partner 1 (it receives
`searching`) and then immediately re-pairs the reporter 0 — with the very
partner it just reported. -/
theorem c5_report_counterexample :
    (run1 false (fun _ => false)
      [.connect 0, .connect 1, .join 0, .join 1]).connectedPairs 0 = some 1 ∧
    (handleEvent1 false (fun _ => false)
        (run1 false (fun _ => false) [.connect 0, .connect 1, .join 0, .join 1])
        (.report 0 .null)).2 =
      [Emit.toSock 1 .partnerDisconnectedMsg, Emit.toSock 1 .searchingMsg,
       Emit.toSock 0 .connectedMsg, Emit.toSock 1 .connectedMsg] ∧
    (handleEvent1 false (fun _ => false)
        (run1 false (fun _ => false) [.connect 0, .connect 1, .join 0, .join 1])
        (.report 0 .null)).1.connectedPairs 0 = some 1 := by decide

/-- C5 (amended): on every legal reachable state in which A is paired with B,
variant 2's report handler behaves as claimed: it removes both directions of
the pair, does not re-enqueue the reported partner B, and leaves the reporter
A idle (unpaired and not enqueued), emitting only `partnerDisconnected` to B.
Variant 1's report handler instead re-enqueues B (it is sent `searching`) and
immediately re-matches the reporter A, which ends up paired again rather than
idle. -/
theorem c5_report_unpair_policy (cfg : Bool) (rok : JsVal → Bool)
    (evs : List Ev) (A B : Nat) (r : JsVal) :
    (LegalFrom2 cfg rok initState evs →
      (run2 cfg rok evs).connectedPairs A = some B →
      ((handleEvent2 cfg rok (run2 cfg rok evs)
          (.report A r)).1.connectedPairs A = none ∧
       (handleEvent2 cfg rok (run2 cfg rok evs)
          (.report A r)).1.connectedPairs B = none ∧
       B ∉ waitingIds (handleEvent2 cfg rok (run2 cfg rok evs)
          (.report A r)).1 ∧
       A ∉ waitingIds (handleEvent2 cfg rok (run2 cfg rok evs)
          (.report A r)).1 ∧
       (handleEvent2 cfg rok (run2 cfg rok evs) (.report A r)).2 =
         [Emit.toSock B .partnerDisconnectedMsg])) ∧
    (LegalFrom1 cfg rok initState evs →
      (run1 cfg rok evs).connectedPairs A = some B →
      (Emit.toSock B .searchingMsg ∈
        (handleEvent1 cfg rok (run1 cfg rok evs) (.report A r)).2 ∧
       (handleEvent1 cfg rok (run1 cfg rok evs)
          (.report A r)).1.connectedPairs A ≠ none)) := by
  constructor
  · intro h hAB
    have hInv := inv_run2 h
    set s := run2 cfg rok evs with hs
    have hD : handleEvent2 cfg rok s (.report A r) = ({ s with
        connectedPairs := mapDelete (mapDelete s.connectedPairs A) B },
      [Emit.toSock B .partnerDisconnectedMsg]) := by
      simp [handleEvent2, disconnectPair2, findPartner, hAB]
    rw [hD]
    refine ⟨?_, ?_, ?_, ?_, rfl⟩
    · show mapDelete (mapDelete s.connectedPairs A) B A = none
      simp [mapDelete]
    · show mapDelete (mapDelete s.connectedPairs A) B B = none
      simp [mapDelete]
    · intro hmem
      obtain ⟨u, hu, huid⟩ := List.mem_map.mp hmem
      have hd := hInv.disj u hu
      rw [huid] at hd
      rw [hInv.sym A B hAB] at hd
      cases hd
    · intro hmem
      obtain ⟨u, hu, huid⟩ := List.mem_map.mp hmem
      have hd := hInv.disj u hu
      rw [huid, hAB] at hd
      cases hd
  · intro h hAB
    have hInv := inv_run1 h
    set s := run1 cfg rok evs with hs
    have hne : A ≠ B := fun hEq => hInv.noSelf B (hEq ▸ hAB)
    have hBlive : B ∈ s.liveSockets := (hInv.pairLive A B hAB).2
    have hD1 : disconnectPair s A = ({ s with
        connectedPairs := mapDelete (mapDelete s.connectedPairs A) B
        waitingUsers := s.waitingUsers.filter (fun u => u.uid != B) ++
          [⟨B, s.clock⟩] },
      [Emit.toSock B .partnerDisconnectedMsg,
       Emit.toSock B .searchingMsg]) := by
      simp [disconnectPair, findPartner, removeFromWaiting, hAB, hBlive]
    have hD2 : handleEvent1 cfg rok s (.report A r) =
        ((findAndPairUsers ({ s with
            connectedPairs := mapDelete (mapDelete s.connectedPairs A) B
            waitingUsers := s.waitingUsers.filter (fun u => u.uid != B) ++
              [⟨B, s.clock⟩] }) A).1,
         [Emit.toSock B .partnerDisconnectedMsg,
          Emit.toSock B .searchingMsg] ++
           (findAndPairUsers ({ s with
            connectedPairs := mapDelete (mapDelete s.connectedPairs A) B
            waitingUsers := s.waitingUsers.filter (fun u => u.uid != B) ++
              [⟨B, s.clock⟩] }) A).2) := by
      simp only [handleEvent1, hD1]
    rw [hD2]
    constructor
    · simp
    · cases hsp : spliceFirst (fun u => u.uid != A)
        ({ s with
            connectedPairs := mapDelete (mapDelete s.connectedPairs A) B
            waitingUsers := s.waitingUsers.filter (fun u => u.uid != B) ++
              [⟨B, s.clock⟩] } : ServerState).waitingUsers with
      | none =>
        exfalso
        have hall := spliceFirst_none.mp hsp
        have hBmem : (⟨B, s.clock⟩ : WaitingUser) ∈
            s.waitingUsers.filter (fun u => u.uid != B) ++ [⟨B, s.clock⟩] := by
          simp
        have := hall _ hBmem
        simp at this
        exact hne this.symm
      | some wr =>
        obtain ⟨w, rest⟩ := wr
        simp only [findAndPairUsers, hsp]
        show mapSet (mapSet _ A w.uid) w.uid A A ≠ none
        by_cases hAw : A = w.uid
        · simp [mapSet, hAw]
        · simp [mapSet, hAw]

/-- C5 (witness): both parts instantiated on the legal trace
`connect 0, connect 1, join 0, join 1` followed by 0's report. -/
theorem c5_report_unpair_policy_witness :
    LegalFrom2 false (fun _ => false) initState
      [.connect 0, .connect 1, .join 0, .join 1] ∧
    (run2 false (fun _ => false)
      [.connect 0, .connect 1, .join 0, .join 1]).connectedPairs 0 = some 1 ∧
    ((handleEvent2 false (fun _ => false)
        (run2 false (fun _ => false) [.connect 0, .connect 1, .join 0, .join 1])
        (.report 0 .null)).1.connectedPairs 0 = none ∧
     (handleEvent2 false (fun _ => false)
        (run2 false (fun _ => false) [.connect 0, .connect 1, .join 0, .join 1])
        (.report 0 .null)).1.connectedPairs 1 = none ∧
     1 ∉ waitingIds (handleEvent2 false (fun _ => false)
        (run2 false (fun _ => false) [.connect 0, .connect 1, .join 0, .join 1])
        (.report 0 .null)).1 ∧
     0 ∉ waitingIds (handleEvent2 false (fun _ => false)
        (run2 false (fun _ => false) [.connect 0, .connect 1, .join 0, .join 1])
        (.report 0 .null)).1 ∧
     (handleEvent2 false (fun _ => false)
        (run2 false (fun _ => false) [.connect 0, .connect 1, .join 0, .join 1])
        (.report 0 .null)).2 = [Emit.toSock 1 .partnerDisconnectedMsg]) ∧
    LegalFrom1 false (fun _ => false) initState
      [.connect 0, .connect 1, .join 0, .join 1] ∧
    (run1 false (fun _ => false)
      [.connect 0, .connect 1, .join 0, .join 1]).connectedPairs 0 = some 1 ∧
    (Emit.toSock 1 .searchingMsg ∈
      (handleEvent1 false (fun _ => false)
        (run1 false (fun _ => false) [.connect 0, .connect 1, .join 0, .join 1])
        (.report 0 .null)).2 ∧
     (handleEvent1 false (fun _ => false)
        (run1 false (fun _ => false) [.connect 0, .connect 1, .join 0, .join 1])
        (.report 0 .null)).1.connectedPairs 0 ≠ none) :=
  ⟨by decide, by decide,
   (c5_report_unpair_policy false (fun _ => false)
      [.connect 0, .connect 1, .join 0, .join 1] 0 1 .null).1
        (by decide) (by decide),
   by decide, by decide,
   (c5_report_unpair_policy false (fun _ => false)
      [.connect 0, .connect 1, .join 0, .join 1] 0 1 .null).2
        (by decide) (by decide)⟩

/-- `relayText` never changes the verification flags. -/
theorem relayText_verified (s : ServerState) (c p : Nat) (t : JsVal) :
    ((relayText s c p t).1).verified = s.verified := by
  unfold relayText; split_ifs <;> rfl

/-- `relayText` emits exactly one event: an error to the sender or the chat
message to the partner. -/
theorem relayText_emits (s : ServerState) (c p : Nat) (t : JsVal) :
    (relayText s c p t).2 = [Emit.toSock c (.errMsg .invalidMessage)] ∨
    (relayText s c p t).2 = [Emit.toSock c (.errMsg .messageTooLong)] ∨
    (relayText s c p t).2 = [Emit.toSock p (.chatMsg (trimList (strVal t)))] := by
  unfold relayText; split_ifs <;> simp

/-- C6 (counterexample): the 500-unit cap is not measured on the trimmed
text. With 0 paired and verified, the text `'a'` followed by 500 spaces has
trimmed length 1 ≤ 500, yet the handler rejects it with `message_too_long`
(its raw length is 501). -/
theorem c6_trimmed_cap_counterexample :
    ({ initState with
        connectedPairs := fun x =>
          if x = 0 then some 1 else if x = 1 then some 0 else none
        verified := fun x => x == 0 } : ServerState).connectedPairs 0 =
      some 1 ∧
    ({ initState with
        connectedPairs := fun x =>
          if x = 0 then some 1 else if x = 1 then some 0 else none
        verified := fun x => x == 0 } : ServerState).verified 0 = true ∧
    (trimList ('a' :: List.replicate 500 ' ')).length ≤ 500 ∧
    (messageHandler false (fun _ => false)
      { initState with
        connectedPairs := fun x =>
          if x = 0 then some 1 else if x = 1 then some 0 else none
        verified := fun x => x == 0 }
      0 ⟨.str ('a' :: List.replicate 500 ' '), .undef⟩).2 =
      [Emit.toSock 0 (.errMsg .messageTooLong)] := by decide

/-- C6 (amended): for every paired, verified connection and string text, the
handler fails with `MessageTooLong` exactly when the raw (untrimmed) text is
longer than 500 and the trimmed text is nonempty: the 500-unit cap is
measured on the raw text, not the trimmed text. -/
theorem c6_length_cap_on_raw_text (cfg : Bool) (rok : JsVal → Bool)
    (s : ServerState) (c p : Nat) (l : List Char) (cap : JsVal)
    (hp : s.connectedPairs c = some p) (hv : s.verified c = true) :
    (Emit.toSock c (.errMsg .messageTooLong) ∈
        (messageHandler cfg rok s c ⟨.str l, cap⟩).2 ↔
      500 < l.length ∧ trimList l ≠ []) := by
  have hmh : messageHandler cfg rok s c ⟨.str l, cap⟩ =
      relayText s c p (.str l) := by
    unfold messageHandler findPartner
    rw [hp]
    simp [hv]
  rw [hmh]
  unfold relayText
  by_cases htrim : trimList l = []
  · have hguard : (falsy (JsVal.str l) || !isStr (JsVal.str l) ||
        (trimList (strVal (JsVal.str l))).isEmpty) = true := by
      simp [strVal, htrim]
    rw [if_pos hguard]
    simp [htrim]
  · have hlne : l ≠ [] := fun h => htrim (by rw [h]; rfl)
    have hguard : ¬ ((falsy (JsVal.str l) || !isStr (JsVal.str l) ||
        (trimList (strVal (JsVal.str l))).isEmpty) = true) := by
      simp [falsy, isStr, strVal, htrim, hlne]
    rw [if_neg hguard]
    by_cases hlen : 500 < (strVal (JsVal.str l)).length
    · rw [if_pos hlen]
      simp only [strVal] at hlen
      simp [hlen, htrim]
    · rw [if_neg hlen]
      simp only [strVal] at hlen
      simp [hlen]

/-- C6 (witness): the amended statement instantiated at a paired, verified
connection and the short text `"hi"`. -/
theorem c6_length_cap_on_raw_text_witness :
    ({ initState with
        connectedPairs := fun x =>
          if x = 0 then some 1 else if x = 1 then some 0 else none
        verified := fun x => x == 0 } : ServerState).connectedPairs 0 =
      some 1 ∧
    ({ initState with
        connectedPairs := fun x =>
          if x = 0 then some 1 else if x = 1 then some 0 else none
        verified := fun x => x == 0 } : ServerState).verified 0 = true ∧
    (Emit.toSock 0 (.errMsg .messageTooLong) ∈
        (messageHandler false (fun _ => false)
          { initState with
            connectedPairs := fun x =>
              if x = 0 then some 1 else if x = 1 then some 0 else none
            verified := fun x => x == 0 }
          0 ⟨.str "hi".toList, .undef⟩).2 ↔
      500 < "hi".toList.length ∧ trimList "hi".toList ≠ []) :=
  ⟨by decide, by decide,
    c6_length_cap_on_raw_text false (fun _ => false)
      { initState with
        connectedPairs := fun x =>
          if x = 0 then some 1 else if x = 1 then some 0 else none
        verified := fun x => x == 0 }
      0 1 "hi".toList .undef (by decide) (by decide)⟩

/-- C7: a message from a connection with no Pairing Table entry leaves the
whole state unchanged (so no verification happens, nothing is relayed, and
the message counter is untouched) and emits exactly the `no_partner` error
to the sender, whatever the payload and verification state. -/
theorem c7_no_partner_short_circuit (cfg : Bool) (rok : JsVal → Bool)
    (s : ServerState) (c : Nat) (d : MsgData)
    (h : s.connectedPairs c = none) :
    messageHandler cfg rok s c d = (s, [Emit.toSock c (.errMsg .noPartner)]) := by
  unfold messageHandler findPartner
  rw [h]

/-- C7 (witness): the statement instantiated at the initial state, where
socket 5 is unpaired. -/
theorem c7_no_partner_short_circuit_witness :
    initState.connectedPairs 5 = none ∧
    messageHandler false (fun _ => false) initState 5
        ⟨.str "hi".toList, .str "tok".toList⟩ =
      (initState, [Emit.toSock 5 (.errMsg .noPartner)]) :=
  ⟨rfl, c7_no_partner_short_circuit false (fun _ => false) initState 5
    ⟨.str "hi".toList, .str "tok".toList⟩ rfl⟩

/-- C8: when the pool is sorted by enqueue time (as every reachable pool is)
and the selection made by the code splices out entry `w`, then `w` is an
eligible pool entry (identity differs from the requester) with the earliest
enqueue timestamp among all eligible entries, and both variants pair the
requester with exactly `w`, removing exactly that entry: the FIFO tie-break
of the claim. -/
theorem c8_fifo_candidate_selection (s : ServerState) (c : Nat)
    (w : WaitingUser) (rest : List WaitingUser)
    (hsorted : List.Pairwise (fun u v : WaitingUser => u.joinedAt ≤ v.joinedAt)
      s.waitingUsers)
    (hsp : spliceFirst (fun u => u.uid != c) s.waitingUsers = some (w, rest)) :
    w ∈ s.waitingUsers ∧ w.uid ≠ c ∧
    (∀ u ∈ s.waitingUsers, u.uid ≠ c → w.joinedAt ≤ u.joinedAt) ∧
    (findAndPairUsers s c).1.connectedPairs c = some w.uid ∧
    (findAndPairUsers s c).1.connectedPairs w.uid = some c ∧
    (findAndPairUsers s c).1.waitingUsers = rest ∧
    (joinHandler2 s c).1.connectedPairs c = some w.uid ∧
    (joinHandler2 s c).1.waitingUsers = rest := by
  obtain ⟨l1, l2, hl, hr, hl1, hpw⟩ := spliceFirst_some hsp
  have hwmem : w ∈ s.waitingUsers := by rw [hl]; simp
  have hwc : w.uid ≠ c := by simpa using hpw
  have hcw : c ≠ w.uid := Ne.symm hwc
  have hmin : ∀ u ∈ s.waitingUsers, u.uid ≠ c → w.joinedAt ≤ u.joinedAt := by
    intro u hu huc
    rw [hl] at hu hsorted
    rcases List.mem_append.mp hu with hu | hu
    · exact absurd (by simpa using hl1 u hu) huc
    · rcases List.mem_cons.mp hu with rfl | hu
      · exact le_refl _
      · have hpc := (List.pairwise_append.mp hsorted).2.1
        exact (List.pairwise_cons.mp hpc).1 u hu
  have hlen : 0 < s.waitingUsers.length := by
    rw [hl]; simp
  refine ⟨hwmem, hwc, hmin, ?_, ?_, ?_, ?_, ?_⟩
  · simp [findAndPairUsers, hsp, mapSet, hcw]
  · simp [findAndPairUsers, hsp, mapSet]
  · simp [findAndPairUsers, hsp]
  · simp [joinHandler2, hlen, hsp, mapSet, hcw]
  · simp [joinHandler2, hlen, hsp]

/-- C8 (witness): the statement instantiated at a pool holding identity 7
(enqueued at time 0) then identity 3 (time 1), with requester 7: the eligible
entry 3 is selected, and both variants pair 7 with 3. -/
theorem c8_fifo_candidate_selection_witness :
    List.Pairwise (fun u v : WaitingUser => u.joinedAt ≤ v.joinedAt)
      ({ initState with
        waitingUsers := [⟨7, 0⟩, ⟨3, 1⟩] } : ServerState).waitingUsers ∧
    spliceFirst (fun u => u.uid != 7)
      ({ initState with
        waitingUsers := [⟨7, 0⟩, ⟨3, 1⟩] } : ServerState).waitingUsers =
      some (⟨3, 1⟩, [⟨7, 0⟩]) ∧
    (findAndPairUsers { initState with waitingUsers := [⟨7, 0⟩, ⟨3, 1⟩] }
      7).1.connectedPairs 7 = some 3 ∧
    (joinHandler2 { initState with waitingUsers := [⟨7, 0⟩, ⟨3, 1⟩] }
      7).1.connectedPairs 7 = some 3 ∧
    (3 : Nat) ≠ 7 ∧
    ((⟨3, 1⟩ : WaitingUser).joinedAt ≤ (⟨3, 1⟩ : WaitingUser).joinedAt) :=
  ⟨by decide, by decide,
   (c8_fifo_candidate_selection
      { initState with waitingUsers := [⟨7, 0⟩, ⟨3, 1⟩] } 7 ⟨3, 1⟩ [⟨7, 0⟩]
      (by decide) (by decide)).2.2.2.1,
   (c8_fifo_candidate_selection
      { initState with waitingUsers := [⟨7, 0⟩, ⟨3, 1⟩] } 7 ⟨3, 1⟩ [⟨7, 0⟩]
      (by decide) (by decide)).2.2.2.2.2.2.1,
   (c8_fifo_candidate_selection
      { initState with waitingUsers := [⟨7, 0⟩, ⟨3, 1⟩] } 7 ⟨3, 1⟩ [⟨7, 0⟩]
      (by decide) (by decide)).2.1,
   (c8_fifo_candidate_selection
      { initState with waitingUsers := [⟨7, 0⟩, ⟨3, 1⟩] } 7 ⟨3, 1⟩ [⟨7, 0⟩]
      (by decide) (by decide)).2.2.1 ⟨3, 1⟩ (by decide) (by decide)⟩

/-- C9: for a paired, not-yet-verified connection, a captcha token that is
absent (`undefined`), the empty string, or the literal `"demo-token"` always
passes verification: the connection's verified flag becomes true, no
`captcha_failed` error can be emitted, and no request is ever sent to the
external reCAPTCHA service. -/
theorem c9_trusted_tokens_bypass (cfg : Bool) (rok : JsVal → Bool)
    (s : ServerState) (c p : Nat) (d : MsgData)
    (hp : s.connectedPairs c = some p) (hv : s.verified c = false)
    (ht : d.captcha = .undef ∨ d.captcha = .str [] ∨
      d.captcha = .str "demo-token".toList) :
    ((messageHandler cfg rok s c d).1).verified c = true ∧
    Emit.toSock c (.errMsg .captchaFailed) ∉ (messageHandler cfg rok s c d).2 ∧
    ∀ t, Emit.recaptchaRequest t ∉ (messageHandler cfg rok s c d).2 := by
  have hVR : verifyRecaptcha cfg rok d.captcha = (true, false) := by
    rcases ht with h | h | h <;> simp [verifyRecaptcha, h, falsy]
  have hmh : messageHandler cfg rok s c d =
      relayText { s with
        verified := fun x => if x = c then true else s.verified x } c p
        d.text := by
    unfold messageHandler findPartner
    rw [hp]
    simp [hv, hVR]
  rw [hmh]
  refine ⟨?_, ?_, ?_⟩
  · rw [relayText_verified]
    simp
  · rcases relayText_emits { s with
        verified := fun x => if x = c then true else s.verified x } c p
        d.text with h | h | h <;> rw [h] <;> simp
  · intro t
    rcases relayText_emits { s with
        verified := fun x => if x = c then true else s.verified x } c p
        d.text with h | h | h <;> rw [h] <;> simp

/-- C9 (witness): the statement instantiated at a paired, unverified
connection sending `"hi"` with the `"demo-token"` captcha. -/
theorem c9_trusted_tokens_bypass_witness :
    ({ initState with
        connectedPairs := fun x =>
          if x = 0 then some 1 else if x = 1 then some 0 else none } :
      ServerState).connectedPairs 0 = some 1 ∧
    ({ initState with
        connectedPairs := fun x =>
          if x = 0 then some 1 else if x = 1 then some 0 else none } :
      ServerState).verified 0 = false ∧
    ((messageHandler true (fun _ => false)
        { initState with
          connectedPairs := fun x =>
            if x = 0 then some 1 else if x = 1 then some 0 else none }
        0 ⟨.str "hi".toList, .str "demo-token".toList⟩).1).verified 0 =
      true ∧
    Emit.toSock 0 (.errMsg .captchaFailed) ∉
      (messageHandler true (fun _ => false)
        { initState with
          connectedPairs := fun x =>
            if x = 0 then some 1 else if x = 1 then some 0 else none }
        0 ⟨.str "hi".toList, .str "demo-token".toList⟩).2 ∧
    Emit.recaptchaRequest (.str "demo-token".toList) ∉
      (messageHandler true (fun _ => false)
        { initState with
          connectedPairs := fun x =>
            if x = 0 then some 1 else if x = 1 then some 0 else none }
        0 ⟨.str "hi".toList, .str "demo-token".toList⟩).2 :=
  ⟨by decide, by decide,
   (c9_trusted_tokens_bypass true (fun _ => false)
      { initState with
        connectedPairs := fun x =>
          if x = 0 then some 1 else if x = 1 then some 0 else none }
      0 1 ⟨.str "hi".toList, .str "demo-token".toList⟩
      (by decide) (by decide) (Or.inr (Or.inr rfl))).1,
   (c9_trusted_tokens_bypass true (fun _ => false)
      { initState with
        connectedPairs := fun x =>
          if x = 0 then some 1 else if x = 1 then some 0 else none }
      0 1 ⟨.str "hi".toList, .str "demo-token".toList⟩
      (by decide) (by decide) (Or.inr (Or.inr rfl))).2.1,
   (c9_trusted_tokens_bypass true (fun _ => false)
      { initState with
        connectedPairs := fun x =>
          if x = 0 then some 1 else if x = 1 then some 0 else none }
      0 1 ⟨.str "hi".toList, .str "demo-token".toList⟩
      (by decide) (by decide) (Or.inr (Or.inr rfl))).2.2
      (.str "demo-token".toList)⟩

/-- C10: for a paired, verified connection, a message whose text payload is
not a string (missing, null, numeric, boolean, or an object) leaves the whole
state unchanged — nothing relayed, message counter untouched — and emits
exactly the `invalid_message` error to the sender. -/
theorem c10_nonstring_text_invalid (cfg : Bool) (rok : JsVal → Bool)
    (s : ServerState) (c p : Nat) (d : MsgData)
    (hp : s.connectedPairs c = some p) (hv : s.verified c = true)
    (ht : ∀ l, d.text ≠ .str l) :
    messageHandler cfg rok s c d =
      (s, [Emit.toSock c (.errMsg .invalidMessage)]) := by
  have hstr : isStr d.text = false := by
    cases h : d.text with
    | str l => exact absurd h (ht l)
    | _ => rfl
  unfold messageHandler findPartner
  rw [hp]
  simp [hv, relayText, hstr]

/-- C10 (witness): the statement instantiated at a paired, verified
connection sending the number 5 as text. -/
theorem c10_nonstring_text_invalid_witness :
    ({ initState with
        connectedPairs := fun x =>
          if x = 0 then some 1 else if x = 1 then some 0 else none
        verified := fun x => x == 0 } : ServerState).connectedPairs 0 =
      some 1 ∧
    ({ initState with
        connectedPairs := fun x =>
          if x = 0 then some 1 else if x = 1 then some 0 else none
        verified := fun x => x == 0 } : ServerState).verified 0 = true ∧
    messageHandler false (fun _ => false)
      { initState with
        connectedPairs := fun x =>
          if x = 0 then some 1 else if x = 1 then some 0 else none
        verified := fun x => x == 0 }
      0 ⟨.num 5, .undef⟩ =
      ({ initState with
        connectedPairs := fun x =>
          if x = 0 then some 1 else if x = 1 then some 0 else none
        verified := fun x => x == 0 },
       [Emit.toSock 0 (.errMsg .invalidMessage)]) :=
  ⟨by decide, by decide,
   c10_nonstring_text_invalid false (fun _ => false)
     { initState with
       connectedPairs := fun x =>
         if x = 0 then some 1 else if x = 1 then some 0 else none
       verified := fun x => x == 0 }
     0 1 ⟨.num 5, .undef⟩ (by decide) (by decide)
     (fun l h => JsVal.noConfusion h)⟩

end Strangermingle
